import Mathlib

/-!
# XcelaV3_test: storage self-test harness and GPS ingest loop

A shallow embedding of `src/main.cpp`.  The sketch is a linear sequence of
calls into three libraries (`EEPROM`, `SPIFFS`, `TinyGPSPlus`) and the
console.  Each library object is a record of state-passing operations over an
arbitrary device state, so a statement quantified over the record holds for
every result the library calls can return.  Every function of the sketch
returns the new device state together with the list of calls it issued, in
program order.

Machine integers are `Nat`/`Int` with explicit reduction (`% 256` for a
`byte`/`char`, `wrapInt32` for an `int`).  A `String` of the sketch is the list
of its bytes.
-/

namespace Xcela

/-! ## Console and call trace -/

/-- Value handed to a console call or to a `printf` conversion. -/
inductive Arg where
  | str (s : String)
  | int (n : Int)
  | flt (bits : Nat)
  | pct (num den : Nat)
  | bytes (l : List Nat)
  deriving DecidableEq, Repr

/-- File open modes: `FILE_READ`, `FILE_WRITE`, `FILE_APPEND`. -/
inductive Mode where
  | read
  | write
  | append
  deriving DecidableEq, Repr

/-- Fields of a GPS fix read by `loop`, in the order the source reads them. -/
inductive Field where
  | lat | lng | age | altitude | speed | course
  | day | month | year | hour | minute | second
  | satellites | hdop
  deriving DecidableEq, Repr

/-- One call issued by the sketch, with the result the callee returned. -/
inductive Event where
  | print (a : Arg)
  | println (a : Arg)
  | printlnDigits (a : Arg) (digits : Nat)
  | printf (fmt : String) (args : List Arg)
  | serialBegin (baud : Nat)
  | gpsSerialBegin (baud rx tx : Nat)
  | delay (ms : Nat)
  | pinMode (pin : Nat)
  | digitalWrite (pin : Nat) (high : Bool)
  | eeBegin (size : Nat) (ok : Bool)
  | eeWrite (addr val : Nat)
  | eeRead (addr val : Nat)
  | eePutInt (addr : Nat) (v : Int)
  | eeGetInt (addr : Nat) (v : Int)
  | eePutFloat (addr bits : Nat)
  | eeGetFloat (addr bits : Nat)
  | eeCommit (ok : Bool)
  | fsBegin (format ok : Bool)
  | fsOpen (path : String) (mode : Mode) (handle : Option Nat)
  | fsOpenNext (dir : Nat) (handle : Option Nat)
  | fsWrite (handle : Nat) (data : List Nat) (written : Nat)
  | fsRead (handle : Nat) (byte : Nat)
  | fsReadUntil (handle : Nat) (line : List Nat)
  | fsClose (handle : Nat)
  | fsExists (path : String) (res : Bool)
  | fsRename (src dst : String) (ok : Bool)
  | fsRemove (path : String) (ok : Bool)
  | fsTotalBytes (n : Nat)
  | fsUsedBytes (n : Nat)
  | gpsAvailable (n : Nat)
  | gpsEncode (byte : Nat)
  | gpsIsUpdated (res : Bool)
  | gpsField (f : Field)
  deriving DecidableEq, Repr

/-- Bytes of an ASCII string literal of the source. -/
def bytesOf (s : String) : List Nat := s.toList.map Char.toNat

/-- The `cond ? "PASS" : "FAIL"` operand of the verdict lines. -/
def verdict (b : Bool) : Arg := if b then .str "PASS" else .str "FAIL"

/-- Conversion of an integer to a 32-bit `int` (two's complement). -/
def wrapInt32 (z : Int) : Int := (z + 2147483648) % 4294967296 - 2147483648

/-! ## EEPROM battery (`testEEPROM`, lines 143-250) -/

/-- `#define EEPROM_SIZE 512`. -/
def EEPROM_SIZE : Nat := 512

/-- The `EEPROM` library object: the calls `testEEPROM` makes, as functions of
an arbitrary device state.  `putInt`/`getInt` and `putFloat`/`getFloat` are the
`put<int>`/`get<int>` and `put<float>`/`get<float>` instances; a `float` is
carried as its 32-bit pattern. -/
structure EEPROMClass (σ : Type) where
  begin : σ → Nat → Bool × σ
  write : σ → Nat → Nat → σ
  read : σ → Nat → Nat × σ
  putInt : σ → Nat → Int → σ
  getInt : σ → Nat → Int × σ
  putFloat : σ → Nat → Nat → σ
  getFloat : σ → Nat → Nat × σ
  commit : σ → Bool × σ

section EEPROM
variable {σ : Type}

/-- Test 1 (lines 154-161): single byte at address 0. -/
def eepromTest1 (E : EEPROMClass σ) (s : σ) : σ × List Event :=
  let testByte : Nat := 42
  let s1 := E.write s 0 testByte
  let c := E.commit s1
  let r := E.read c.2 0
  let readByte := r.1 % 256
  (r.2,
    [.println (.str "\nTest 1: Write/Read single byte"),
     .eeWrite 0 testByte,
     .eeCommit c.1,
     .eeRead 0 readByte,
     .printf "  Written: %d, Read: %d - %s\n"
       [.int testByte, .int readByte, verdict (testByte == readByte)]])

/-- Test 2 (lines 163-171): `int` at address `addr`.  The source passes
`addr = 10` and `testInt = 12345`. -/
def eepromTest2 (E : EEPROMClass σ) (addr : Nat) (testInt : Int) (s : σ) :
    σ × List Event :=
  let s1 := E.putInt s addr testInt
  let c := E.commit s1
  let r := E.getInt c.2 addr
  let readInt := wrapInt32 r.1
  (r.2,
    [.println (.str "\nTest 2: Write/Read integer"),
     .eePutInt addr testInt,
     .eeCommit c.1,
     .eeGetInt addr readInt,
     .printf "  Written: %d, Read: %d - %s\n"
       [.int testInt, .int readInt, verdict (testInt == readInt)]])

/-- Bit pattern of the single-precision constant `3.14159`. -/
def testFloat : Nat := 0x40490FD0

/-- Test 3 (lines 173-181): `float` at address 20.  `near a b` stands for
`abs(a - b) < 0.0001` on single-precision values. -/
def eepromTest3 (E : EEPROMClass σ) (near : Nat → Nat → Bool) (s : σ) :
    σ × List Event :=
  let s1 := E.putFloat s 20 testFloat
  let c := E.commit s1
  let r := E.getFloat c.2 20
  let readFloat := r.1 % 4294967296
  (r.2,
    [.println (.str "\nTest 3: Write/Read float"),
     .eePutFloat 20 testFloat,
     .eeCommit c.1,
     .eeGetFloat 20 readFloat,
     .printf "  Written: %.5f, Read: %.5f - %s\n"
       [.flt testFloat, .flt readFloat, verdict (near testFloat readFloat)]])

/-- The write loops `for (i = ...) EEPROM.write(addr + i, data[i])` of tests 4,
5 and 6, from index `i` over the remaining elements. -/
def writeLoop (E : EEPROMClass σ) (addr : Nat) : List Nat → Nat → σ → σ × List Event
  | [], _, s => (s, [])
  | b :: bs, i, s =>
    let s1 := E.write s (addr + i) (b % 256)
    let r := writeLoop E addr bs (i + 1) s1
    (r.1, .eeWrite (addr + i) (b % 256) :: r.2)

/-- The read loops `for (i = ...) ... EEPROM.read(addr + i)` of tests 5 and 6:
`n` more reads from index `i`; returns the bytes read. -/
def readLoop (E : EEPROMClass σ) (addr : Nat) : Nat → Nat → σ → σ × List Nat × List Event
  | 0, _, s => (s, [], [])
  | n + 1, i, s =>
    let r := E.read s (addr + i)
    let b := r.1 % 256
    let rest := readLoop E addr n (i + 1) r.2
    (rest.1, b :: rest.2.1, .eeRead (addr + i) b :: rest.2.2)

/-- The read-back loop of test 4 (lines 193-199):
`while ((c = EEPROM.read(addr + i)) != 0 && i < 50) { readString += c; i++; }`.
The read happens before the cap is tested. -/
def readStringLoop (E : EEPROMClass σ) (addr : Nat) (i : Nat) (readString : List Nat)
    (s : σ) : σ × List Nat × List Event :=
  let r := E.read s (addr + i)
  let c := r.1 % 256
  if c ≠ 0 ∧ i < 50 then
    let rest := readStringLoop E addr (i + 1) (readString ++ [c]) r.2
    (rest.1, rest.2.1, .eeRead (addr + i) c :: rest.2.2)
  else
    (r.2, readString, [.eeRead (addr + i) c])
termination_by 50 - i
decreasing_by omega

/-- Test 4 (lines 183-202): NUL-terminated string at address `addr`.  The
source passes `addr = 30` and `testString = "ESP32-S3"`. -/
def eepromTest4 (E : EEPROMClass σ) (addr : Nat) (testString : List Nat) (s : σ) :
    σ × List Event :=
  let w := writeLoop E addr testString 0 s
  let s1 := E.write w.1 (addr + testString.length) 0
  let c := E.commit s1
  let r := readStringLoop E addr 0 [] c.2
  let readString := r.2.1
  (r.1,
    [.println (.str "\nTest 4: Write/Read string")] ++ w.2 ++
    [.eeWrite (addr + testString.length) 0, .eeCommit c.1] ++ r.2.2 ++
    [.printf "  Written: '%s', Read: '%s' - %s\n"
       [.bytes testString, .bytes readString, verdict (testString == readString)]])

/-- The element printing loops of test 5 (lines 219-221 and 223-225). -/
def printArray : List Nat → Nat → List Event
  | [], _ => []
  | b :: bs, i =>
    .printf "%d%s" [.int b, .str (if i < 4 then ", " else "")] :: printArray bs (i + 1)

/-- The comparison loop of test 5 (lines 228-231). -/
def arrayMatch : List Nat → List Nat → Bool
  | a :: as, b :: bs => (a == b) && arrayMatch as bs
  | _, _ => true

/-- Test 5 (lines 204-232): five bytes at address 100. -/
def eepromTest5 (E : EEPROMClass σ) (s : σ) : σ × List Event :=
  let testArray : List Nat := [10, 20, 30, 40, 50]
  let w := writeLoop E 100 testArray 0 s
  let c := E.commit w.1
  let r := readLoop E 100 5 0 c.2
  let readArray := r.2.1
  (r.1,
    [.println (.str "\nTest 5: Write/Read byte array")] ++ w.2 ++ [.eeCommit c.1] ++
    r.2.2 ++
    [.print (.str "  Written: [")] ++ printArray testArray 0 ++
    [.print (.str "]\n  Read:    [")] ++ printArray readArray 0 ++
    [.println (.str "]"),
     .printf "  Result: %s\n" [verdict (arrayMatch testArray readArray)]])

/-- Test 6 (lines 234-247): ten bytes of 0xFF at address 200. -/
def eepromTest6 (E : EEPROMClass σ) (s : σ) : σ × List Event :=
  let clearSize : Nat := 10
  let w := writeLoop E 200 (List.replicate clearSize 255) 0 s
  let c := E.commit w.1
  let r := readLoop E 200 clearSize 0 c.2
  let allCleared := r.2.1.all (fun b => b == 255)
  (r.1,
    [.println (.str "\nTest 6: Clear EEPROM section")] ++ w.2 ++ [.eeCommit c.1] ++
    r.2.2 ++
    [.printf "  Cleared %d bytes - %s\n" [.int clearSize, verdict allCleared]])

/-- The six tests in source order, after a successful `begin`. -/
def eepromBattery (E : EEPROMClass σ) (near : Nat → Nat → Bool) (s : σ) :
    σ × List Event :=
  let t1 := eepromTest1 E s
  let t2 := eepromTest2 E 10 12345 t1.1
  let t3 := eepromTest3 E near t2.1
  let t4 := eepromTest4 E 30 (bytesOf "ESP32-S3") t3.1
  let t5 := eepromTest5 E t4.1
  let t6 := eepromTest6 E t5.1
  (t6.1, t1.2 ++ t2.2 ++ t3.2 ++ t4.2 ++ t5.2 ++ t6.2)

/-- `testEEPROM` (lines 143-250). -/
def testEEPROM (E : EEPROMClass σ) (near : Nat → Nat → Bool) (s : σ) :
    σ × List Event :=
  let b := E.begin s EEPROM_SIZE
  if b.1 = false then
    (b.2,
      [.println (.str "\n--- EEPROM Test Start ---"),
       .eeBegin EEPROM_SIZE false,
       .println (.str "Failed to initialize EEPROM!")])
  else
    let t := eepromBattery E near b.2
    (t.1,
      [.println (.str "\n--- EEPROM Test Start ---"),
       .eeBegin EEPROM_SIZE true,
       .println (.str "✓ EEPROM initialized successfully"),
       .printf "✓ EEPROM size: %d bytes\n" [.int EEPROM_SIZE]] ++ t.2 ++
      [.println (.str "\n--- EEPROM Test Complete ---")])

end EEPROM

/-! ## ByteStore: the store behind `EEPROM`, from sections 3 and 4.1 of the spec -/

/-- Modelled from the spec: the ByteStore behind the `EEPROM` object, whose
library code is not among the repository's sources.  Section 3 gives it a
capacity, an in-memory mirror and a dirty flag; `durable` is the content of
the backing medium and `mediumOk` says whether the medium can be initialised
and flushed. -/
structure ByteStore where
  capacity : Nat
  mirror : List Nat
  durable : List Nat
  dirty : Bool
  mediumOk : Bool
  deriving DecidableEq, Repr

namespace ByteStore

/-- Modelled from the spec: `mount(capacity)` allocates the region and loads
it from the medium (erased cells read 0xFF); it fails, leaving the store as it
was, when the medium cannot be initialised. -/
def mount (s : ByteStore) (capacity : Nat) : Bool × ByteStore :=
  if s.mediumOk then
    (true, { s with capacity := capacity
                    mirror := (s.durable ++ List.replicate capacity 255).take capacity
                    dirty := false })
  else (false, s)

/-- Modelled from the spec: `writeByte(addr, value)` on the mirror.  An address
outside `[0, capacity)` is a programming error the spec leaves undefined; the
model leaves the store untouched there. -/
def writeByte (s : ByteStore) (addr val : Nat) : ByteStore :=
  if addr < s.capacity then { s with mirror := s.mirror.set addr (val % 256), dirty := true }
  else s

/-- Modelled from the spec: `readByte(addr)` returns the mirror's byte, the
last value written in this session or else the committed one. -/
def readByte (s : ByteStore) (addr : Nat) : Nat := s.mirror.getD addr 0

/-- Modelled from the spec: `writeBytes(addr, span)`, a contiguous span
starting at `addr`. -/
def writeBytes (s : ByteStore) (addr : Nat) : List Nat → ByteStore
  | [] => s
  | b :: bs => writeBytes (s.writeByte addr b) (addr + 1) bs

/-- Modelled from the spec: `readBytes(addr, len)`. -/
def readBytes (s : ByteStore) (addr : Nat) : Nat → List Nat
  | 0 => []
  | n + 1 => s.readByte addr :: readBytes s (addr + 1) n

/-- Modelled from the spec: the contiguous byte span of a fixed-width 32-bit
value, least significant byte first. -/
def bytes32 (u : Nat) : List Nat :=
  [u % 256, u / 256 % 256, u / 65536 % 256, u / 16777216 % 256]

/-- Modelled from the spec: the 32-bit value of a four-byte span, least
significant byte first. -/
def word32 : List Nat → Nat
  | [b0, b1, b2, b3] => b0 + 256 * b1 + 65536 * b2 + 16777216 * b3
  | _ => 0

/-- Modelled from the spec: the two's-complement pattern a signed 32-bit
integer is serialised as. -/
def encodeInt32 (v : Int) : Nat := (v % 4294967296).toNat

/-- Modelled from the spec: the signed 32-bit integer a pattern deserialises
to. -/
def decodeInt32 (u : Nat) : Int :=
  if u < 2147483648 then (u : Int) else (u : Int) - 4294967296

/-- Modelled from the spec: `writeTyped(addr, value)` for a 32-bit integer; the
caller guarantees `addr + 4 <= capacity`, and the model writes nothing
otherwise. -/
def putInt (s : ByteStore) (addr : Nat) (v : Int) : ByteStore :=
  if addr + 4 ≤ s.capacity then s.writeBytes addr (bytes32 (encodeInt32 v)) else s

/-- Modelled from the spec: `readTyped(addr)` for a 32-bit integer. -/
def getInt (s : ByteStore) (addr : Nat) : Int :=
  decodeInt32 (word32 (s.readBytes addr 4))

/-- Modelled from the spec: `writeTyped(addr, value)` for a 32-bit float,
given by its bit pattern. -/
def putFloat (s : ByteStore) (addr : Nat) (bits : Nat) : ByteStore :=
  if addr + 4 ≤ s.capacity then s.writeBytes addr (bytes32 (bits % 4294967296)) else s

/-- Modelled from the spec: `readTyped(addr)` for a 32-bit float. -/
def getFloat (s : ByteStore) (addr : Nat) : Nat := word32 (s.readBytes addr 4)

/-- Modelled from the spec: `commit()` flushes the mirror to the medium; on
failure nothing is rolled back and the mirror stays as it was. -/
def commit (s : ByteStore) : Bool × ByteStore :=
  if s.mediumOk then (true, { s with durable := s.mirror, dirty := false })
  else (false, s)

/-- Modelled from the spec: a store mounted with capacity `n`, whose mirror
holds `n` bytes. -/
def Mounted (s : ByteStore) (n : Nat) : Prop := s.capacity = n ∧ s.mirror.length = n

instance (s : ByteStore) (n : Nat) : Decidable (s.Mounted n) := by
  unfold Mounted
  exact inferInstance

/-- A blank medium that mounts. -/
def fresh : ByteStore :=
  { capacity := 0, mirror := [], durable := [], dirty := false, mediumOk := true }

/-- A medium that cannot be initialised. -/
def broken : ByteStore :=
  { capacity := 0, mirror := [], durable := [], dirty := false, mediumOk := false }

end ByteStore

/-- Modelled from the spec: the ByteStore as the `EEPROM` object of the
sketch. -/
def byteStoreEEPROM : EEPROMClass ByteStore where
  begin := ByteStore.mount
  write := ByteStore.writeByte
  read := fun s a => (s.readByte a, s)
  putInt := ByteStore.putInt
  getInt := fun s a => (s.getInt a, s)
  putFloat := ByteStore.putFloat
  getFloat := fun s a => (s.getFloat a, s)
  commit := ByteStore.commit


/-! ## SPIFFS battery (`testSPIFFS` and its helpers, lines 254-435) -/

/-- `#define TEST_FILE "/test.txt"`. -/
def TEST_FILE : String := "/test.txt"

/-- `#define TEST_FILE_2 "/data.bin"`. -/
def TEST_FILE_2 : String := "/data.bin"

/-- An entry a directory handle yields through `openNextFile()`: the handle
of the entry with its `name()` and `size()`. -/
structure DirEntry where
  handle : Nat
  name : String
  size : Nat
  deriving DecidableEq, Repr

/-- A valid `File` object.  `data` holds the bytes still to be read (what
`available()` counts and `read()` consumes), `entries` the directory entries
`openNextFile()` has not returned yet.  An invalid `File` (`!file`) is `none`. -/
structure File where
  handle : Nat
  name : String
  mode : Mode
  isDirectory : Bool
  size : Nat
  data : List Nat
  entries : List DirEntry
  deriving DecidableEq, Repr

/-- The `SPIFFS` library object together with the writing side of `File`: the
calls `testSPIFFS` makes, as functions of an arbitrary device state.  `write`
returns the number of bytes written. -/
structure SPIFFSClass (τ : Type) where
  begin : τ → Bool → Bool × τ
  openFile : τ → String → Mode → Option File × τ
  write : τ → File → List Nat → Nat × τ
  close : τ → File → τ
  pathExists : τ → String → Bool × τ
  rename : τ → String → String → Bool × τ
  remove : τ → String → Bool × τ
  totalBytes : τ → Nat
  usedBytes : τ → Nat

/-- A `size_t` passed to a `%d` conversion. -/
def fmtD (n : Nat) : Arg := .int (wrapInt32 (n % 4294967296))

/-- The decimal digits `%lu` prints. -/
def formatUnsigned (n : Nat) : List Nat := (Nat.toDigits 10 n).map Char.toNat

/-- The line terminator `Print::println` emits, CR LF. -/
def CRLF : List Nat := [13, 10]

/-- `Stream::readStringUntil(terminator)` on the bytes still to be read: the
line without its terminator, and the bytes left after the terminator. -/
def readStringUntil (terminator : Nat) : List Nat → List Nat × List Nat
  | [] => ([], [])
  | c :: cs =>
    if c = terminator then ([], cs)
    else (c :: (readStringUntil terminator cs).1, (readStringUntil terminator cs).2)

section SPIFFS
variable {τ : Type}

/-- `printSPIFFSInfo` (lines 354-362). -/
def printSPIFFSInfo (F : SPIFFSClass τ) (t : τ) : List Event :=
  let total := F.totalBytes t % 4294967296
  let used := F.usedBytes t % 4294967296
  [.println (.str "\n--- SPIFFS Information ---"),
   .fsTotalBytes total,
   .printf "  Total bytes: %d\n" [fmtD total],
   .fsUsedBytes used,
   .printf "  Used bytes:  %d\n" [fmtD used],
   .fsTotalBytes total,
   .fsUsedBytes used,
   .printf "  Free bytes:  %d\n" [fmtD ((total + 4294967296 - used) % 4294967296)],
   .fsUsedBytes used,
   .fsTotalBytes total,
   .printf "  Usage: %.1f%%\n" [.pct used total],
   .println (.str "-------------------------")]

/-- `file.println(text)`: the text, then the line terminator. -/
def filePrintln (F : SPIFFSClass τ) (file : File) (text : List Nat) (t : τ) :
    τ × List Event :=
  let w1 := F.write t file text
  let w2 := F.write w1.2 file CRLF
  (w2.2, [.fsWrite file.handle text w1.1, .fsWrite file.handle CRLF w2.1])

/-- `writeTestFile` (lines 364-379); `millis` is the value `millis()` returns. -/
def writeTestFile (F : SPIFFSClass τ) (millis : Nat) (t : τ) : τ × List Event :=
  let o := F.openFile t TEST_FILE .write
  match o.1 with
  | none =>
    (o.2,
      [.fsOpen TEST_FILE .write none,
       .println (.str "✗ Failed to open file for writing")])
  | some file =>
    let p1 := filePrintln F file (bytesOf "ESP32-S3 SPIFFS Test File") o.2
    let p2 := filePrintln F file (bytesOf "=========================") p1.1
    let p3 := filePrintln F file (bytesOf "Line 1: Hello from ESP32-S3!") p2.1
    let p4 := filePrintln F file (bytesOf "Line 2: SPIFFS is working!") p3.1
    let line := bytesOf "Line 3: Millis = " ++ formatUnsigned (millis % 4294967296) ++ [10]
    let p5 := F.write p4.1 file line
    (F.close p5.2 file,
      [.fsOpen TEST_FILE .write (some file.handle)] ++ p1.2 ++ p2.2 ++ p3.2 ++ p4.2 ++
      [.fsWrite file.handle line p5.1,
       .fsClose file.handle,
       .println (.str "✓ Test file written successfully")])

/-- The loop of `readTestFile` (lines 392-395):
`while (file.available()) { line = file.readStringUntil(10); printf(line); }`. -/
def readLines (handle : Nat) (data : List Nat) : List Event :=
  if _h : data = [] then []
  else
    .fsReadUntil handle (readStringUntil 10 data).1 ::
    .printf "  %s\n" [.bytes (readStringUntil 10 data).1] ::
    readLines handle (readStringUntil 10 data).2
termination_by data.length
decreasing_by
  have key : ∀ l : List Nat, (readStringUntil 10 l).2.length ≤ l.length := by
    intro l
    induction l with
    | nil => simp [readStringUntil]
    | cons c cs ih =>
      unfold readStringUntil
      split
      · simp
      · simp only [List.length_cons]; omega
  cases data with
  | nil => exact absurd rfl _h
  | cons c cs =>
    unfold readStringUntil
    split
    · simp
    · have := key cs
      simp only [List.length_cons]; omega

/-- `readTestFile` (lines 381-399). -/
def readTestFile (F : SPIFFSClass τ) (t : τ) : τ × List Event :=
  let o := F.openFile t TEST_FILE .read
  match o.1 with
  | none =>
    (o.2,
      [.fsOpen TEST_FILE .read none,
       .println (.str "✗ Failed to open file for reading")])
  | some file =>
    (F.close o.2 { file with data := [] },
      [.fsOpen TEST_FILE .read (some file.handle),
       .printf "  File: %s\n" [.str TEST_FILE],
       .printf "  Size: %d bytes\n" [fmtD file.size],
       .println (.str "  Contents:"),
       .println (.str "  ---")] ++ readLines file.handle file.data ++
      [.println (.str "  ---"),
       .fsClose file.handle,
       .println (.str "✓ File read successfully")])

/-- The enumeration loop of `listSPIFFSFiles` (lines 414-420):
`file = root.openNextFile(); while (file) { printf(...); file = root.openNextFile(); }`. -/
def listLoop (dir : Nat) : List DirEntry → List Event
  | [] => [.fsOpenNext dir none]
  | e :: es =>
    .fsOpenNext dir (some e.handle) ::
    .printf "    - %s (%d bytes)\n" [.str e.name, fmtD e.size] :: listLoop dir es

/-- `listSPIFFSFiles` (lines 401-427). -/
def listSPIFFSFiles (F : SPIFFSClass τ) (t : τ) : τ × List Event :=
  let o := F.openFile t "/" .read
  match o.1 with
  | none =>
    (o.2,
      [.fsOpen "/" .read none,
       .println (.str "✗ Failed to open root directory")])
  | some root =>
    if root.isDirectory = false then
      (o.2,
        [.fsOpen "/" .read (some root.handle),
         .println (.str "✗ Root is not a directory")])
    else
      let fileCount := root.entries.length
      (o.2,
        [.fsOpen "/" .read (some root.handle),
         .println (.str "  Files in SPIFFS:")] ++ listLoop root.handle root.entries ++
        [if fileCount = 0 then .println (.str "    (no files)")
         else .printf "  Total files: %d\n" [fmtD fileCount]])

/-- `deleteSPIFFSFile` (lines 429-435). -/
def deleteSPIFFSFile (F : SPIFFSClass τ) (path : String) (t : τ) : τ × List Event :=
  let r := F.remove t path
  (r.2,
    [.fsRemove path r.1,
     if r.1 then .printf "  ✓ Deleted: %s\n" [.str path]
     else .printf "  ✗ Failed to delete: %s\n" [.str path]])

/-- Test 1 (lines 267-269). -/
def spiffsTest1 (F : SPIFFSClass τ) (millis : Nat) (t : τ) : τ × List Event :=
  let w := writeTestFile F millis t
  (w.1, .println (.str "\nTest 1: Write text file") :: w.2)

/-- Test 2 (lines 271-273). -/
def spiffsTest2 (F : SPIFFSClass τ) (t : τ) : τ × List Event :=
  let r := readTestFile F t
  (r.1, .println (.str "\nTest 2: Read text file") :: r.2)

/-- The append step of test 3 (lines 277-285). -/
def appendStep (F : SPIFFSClass τ) (t : τ) : τ × List Event :=
  let o := F.openFile t TEST_FILE .append
  match o.1 with
  | some file =>
    let p1 := filePrintln F file (bytesOf "Appended line 1") o.2
    let p2 := filePrintln F file (bytesOf "Appended line 2") p1.1
    (F.close p2.1 file,
      [.fsOpen TEST_FILE .append (some file.handle)] ++ p1.2 ++ p2.2 ++
      [.fsClose file.handle,
       .println (.str "✓ Data appended successfully")])
  | none =>
    (o.2,
      [.fsOpen TEST_FILE .append none,
       .println (.str "✗ Failed to open file for appending")])

/-- Test 3 (lines 275-288): the append step, then `readTestFile` again. -/
def spiffsTest3 (F : SPIFFSClass τ) (t : τ) : τ × List Event :=
  let a := appendStep F t
  let r := readTestFile F a.1
  (r.1, .println (.str "\nTest 3: Append to file") :: (a.2 ++ r.2))

/-- Test 4 (lines 290-300). -/
def spiffsTest4 (F : SPIFFSClass τ) (t : τ) : τ × List Event :=
  let o := F.openFile t TEST_FILE_2 .write
  match o.1 with
  | some file =>
    let binaryData : List Nat := [0, 1, 2, 3, 4, 5, 6, 7, 8, 9]
    let w := F.write o.2 file binaryData
    (F.close w.2 file,
      [.println (.str "\nTest 4: Write binary file"),
       .fsOpen TEST_FILE_2 .write (some file.handle),
       .fsWrite file.handle binaryData w.1,
       .fsClose file.handle,
       .printf "✓ Written %d bytes to binary file\n" [fmtD w.1]])
  | none =>
    (o.2,
      [.println (.str "\nTest 4: Write binary file"),
       .fsOpen TEST_FILE_2 .write none,
       .println (.str "✗ Failed to create binary file")])

/-- The loop of test 5 (lines 308-311):
`while (file.available()) { b = file.read(); printf(b, file.available() ? ", " : ""); }`. -/
def dumpBytes (handle : Nat) : List Nat → List Event
  | [] => []
  | b :: bs =>
    .fsRead handle (b % 256) ::
    .printf "%d%s" [.int (b % 256), .str (if bs ≠ [] then ", " else "")] ::
    dumpBytes handle bs

/-- Test 5 (lines 302-317). -/
def spiffsTest5 (F : SPIFFSClass τ) (t : τ) : τ × List Event :=
  let o := F.openFile t TEST_FILE_2 .read
  match o.1 with
  | some file =>
    (F.close o.2 { file with data := [] },
      [.println (.str "\nTest 5: Read binary file"),
       .fsOpen TEST_FILE_2 .read (some file.handle),
       .printf "  File size: %d bytes\n" [fmtD file.size],
       .print (.str "  Data: [")] ++ dumpBytes file.handle file.data ++
      [.println (.str "]"),
       .fsClose file.handle,
       .println (.str "✓ Binary file read successfully")])
  | none =>
    (o.2,
      [.println (.str "\nTest 5: Read binary file"),
       .fsOpen TEST_FILE_2 .read none,
       .println (.str "✗ Failed to read binary file")])

/-- Test 6 (lines 319-321). -/
def spiffsTest6 (F : SPIFFSClass τ) (t : τ) : τ × List Event :=
  let l := listSPIFFSFiles F t
  (l.1, .println (.str "\nTest 6: List all files") :: l.2)

/-- Test 7 (lines 323-328). -/
def spiffsTest7 (F : SPIFFSClass τ) (t : τ) : τ × List Event :=
  let e1 := F.pathExists t TEST_FILE
  let e2 := F.pathExists e1.2 "/nonexistent.txt"
  (e2.2,
    [.println (.str "\nTest 7: Check file existence"),
     .fsExists TEST_FILE e1.1,
     .printf "  %s exists: %s\n" [.str TEST_FILE, .str (if e1.1 then "YES" else "NO")],
     .fsExists "/nonexistent.txt" e2.1,
     .printf "  /nonexistent.txt exists: %s\n" [.str (if e2.1 then "YES" else "NO")]])

/-- Test 8 (lines 330-337). -/
def spiffsTest8 (F : SPIFFSClass τ) (t : τ) : τ × List Event :=
  let r := F.rename t TEST_FILE_2 "/renamed.bin"
  if r.1 then
    let l := listSPIFFSFiles F r.2
    (l.1,
      [.println (.str "\nTest 8: Rename file"),
       .fsRename TEST_FILE_2 "/renamed.bin" true,
       .println (.str "✓ File renamed successfully")] ++ l.2)
  else
    (r.2,
      [.println (.str "\nTest 8: Rename file"),
       .fsRename TEST_FILE_2 "/renamed.bin" false,
       .println (.str "✗ Failed to rename file")])

/-- Test 9 (lines 339-342). -/
def spiffsTest9 (F : SPIFFSClass τ) (t : τ) : τ × List Event :=
  let d1 := deleteSPIFFSFile F TEST_FILE t
  let d2 := deleteSPIFFSFile F "/renamed.bin" d1.1
  (d2.1, .println (.str "\nTest 9: Delete files") :: (d1.2 ++ d2.2))

/-- The nine tests in source order, after a successful `begin`. -/
def spiffsBattery (F : SPIFFSClass τ) (millis : Nat) (t : τ) : τ × List Event :=
  let t1 := spiffsTest1 F millis t
  let t2 := spiffsTest2 F t1.1
  let t3 := spiffsTest3 F t2.1
  let t4 := spiffsTest4 F t3.1
  let t5 := spiffsTest5 F t4.1
  let t6 := spiffsTest6 F t5.1
  let t7 := spiffsTest7 F t6.1
  let t8 := spiffsTest8 F t7.1
  let t9 := spiffsTest9 F t8.1
  (t9.1, t1.2 ++ t2.2 ++ t3.2 ++ t4.2 ++ t5.2 ++ t6.2 ++ t7.2 ++ t8.2 ++ t9.2)

/-- `testSPIFFS` (lines 254-352). -/
def testSPIFFS (F : SPIFFSClass τ) (millis : Nat) (t : τ) : τ × List Event :=
  let b := F.begin t true
  if b.1 = false then
    (b.2,
      [.println (.str "\n--- SPIFFS Test Start ---"),
       .fsBegin true false,
       .println (.str "✗ SPIFFS mount failed!")])
  else
    let r := spiffsBattery F millis b.2
    let l := listSPIFFSFiles F r.1
    (l.1,
      [.println (.str "\n--- SPIFFS Test Start ---"),
       .fsBegin true true,
       .println (.str "✓ SPIFFS mounted successfully")] ++ printSPIFFSInfo F b.2 ++
      r.2 ++ [.println (.str "\nFinal file list:")] ++ l.2 ++ printSPIFFSInfo F l.1 ++
      [.println (.str "\n--- SPIFFS Test Complete ---")])

end SPIFFS


/-! ## FileStore: the filesystem behind `SPIFFS`, from sections 3 and 4.2 of the spec -/

/-- Modelled from the spec: the FileStore behind the `SPIFFS` object, whose
library code is not among the repository's sources.  Section 3 gives it a set
of entries (name, content) and a reported capacity; `mountOk` and `formatOk`
say whether mounting, and mounting after a format, succeed; `nextHandle`
numbers the handles it gives out. -/
structure FileStore where
  files : List (String × List Nat)
  capacity : Nat
  mountOk : Bool
  formatOk : Bool
  nextHandle : Nat
  deriving DecidableEq, Repr

namespace FileStore

/-- Modelled from the spec: content of the entry named `path`. -/
def lookupFile : List (String × List Nat) → String → Option (List Nat)
  | [], _ => none
  | (q, c) :: fs, path => if q = path then some c else lookupFile fs path

/-- Modelled from the spec: replaces the content of the entry named `path`,
creating the entry at the end when it is absent. -/
def putFile : List (String × List Nat) → String → List Nat → List (String × List Nat)
  | [], path, c => [(path, c)]
  | (q, d) :: fs, path, c =>
    if q = path then (path, c) :: fs else (q, d) :: putFile fs path c

/-- Modelled from the spec: removes the entry named `path`. -/
def dropFile : List (String × List Nat) → String → List (String × List Nat)
  | [], _ => []
  | (q, d) :: fs, path => if q = path then fs else (q, d) :: dropFile fs path

/-- Modelled from the spec: gives the entry named `src` the name `dst`,
keeping its content. -/
def moveFile : List (String × List Nat) → String → String → List (String × List Nat)
  | [], _, _ => []
  | (q, d) :: fs, src, dst =>
    if q = src then (dst, d) :: fs else (q, d) :: moveFile fs src dst

/-- Modelled from the spec: the DirectoryListing, one summary (name and size)
per entry, with handles from `h` on. -/
def dirEntries : List (String × List Nat) → Nat → List DirEntry
  | [], _ => []
  | (q, c) :: fs, h => { handle := h, name := q, size := c.length } :: dirEntries fs (h + 1)

/-- Modelled from the spec: content of the file named `path`. -/
def content (s : FileStore) (path : String) : Option (List Nat) := lookupFile s.files path

/-- Modelled from the spec: `mount(formatOnFailure)`; when mounting fails and
the flag is set the store is erased and mounting retried once. -/
def mount (s : FileStore) (formatOnFailure : Bool) : Bool × FileStore :=
  if s.mountOk then (true, s)
  else if formatOnFailure && s.formatOk then (true, { s with files := [], mountOk := true })
  else (false, s)

/-- Modelled from the spec: the OpenFileHandle `open` returns for a regular
file; a read handle starts at the first byte of the content. -/
def fileHandle (s : FileStore) (path : String) (mode : Mode) (c : List Nat) : File :=
  { handle := s.nextHandle, name := path, mode := mode, isDirectory := false,
    size := c.length, data := if mode = .read then c else [], entries := [] }

/-- Modelled from the spec: `open(path, mode)`.  `read` fails if the file is
absent; `writeTruncate` creates it if absent and discards existing content;
`append` creates it if absent.  Reading `"/"` opens the root directory, whose
handle yields the listing of `listRoot()`. -/
def openFile (s : FileStore) (path : String) (mode : Mode) : Option File × FileStore :=
  match mode with
  | .read =>
    if path = "/" then
      (some { handle := s.nextHandle, name := path, mode := .read, isDirectory := true,
              size := 0, data := [], entries := dirEntries s.files (s.nextHandle + 1) },
       { s with nextHandle := s.nextHandle + 1 + s.files.length })
    else
      match lookupFile s.files path with
      | none => (none, s)
      | some c => (some (fileHandle s path .read c), { s with nextHandle := s.nextHandle + 1 })
  | .write =>
    (some (fileHandle s path .write []),
     { s with files := putFile s.files path [], nextHandle := s.nextHandle + 1 })
  | .append =>
    match lookupFile s.files path with
    | none =>
      (some (fileHandle s path .append []),
       { s with files := putFile s.files path [], nextHandle := s.nextHandle + 1 })
    | some c => (some (fileHandle s path .append c), { s with nextHandle := s.nextHandle + 1 })

/-- Modelled from the spec: total content size of a list of entries. -/
def usedList (fs : List (String × List Nat)) : Nat := (fs.map (fun f => f.2.length)).sum

/-- Modelled from the spec: `usedBytes()`, the total content size. -/
def usedBytes (s : FileStore) : Nat := usedList s.files

/-- Modelled from the spec: `writeBytes(span) -> bytesWritten` and
`writeLine(text)` on a handle opened for writing or appending: the bytes go to
the end of the entry, as far as the free space (`capacity - usedBytes`)
reaches, so that the total content size never exceeds the reported capacity;
the count of bytes stored is returned.  A handle opened for reading writes
nothing. -/
def write (s : FileStore) (file : File) (span : List Nat) : Nat × FileStore :=
  if file.mode = .read then (0, s)
  else
    match lookupFile s.files file.name with
    | none => (0, s)
    | some c =>
      ((span.take (s.capacity - s.usedBytes)).length,
       { s with files :=
           putFile s.files file.name (c ++ span.take (s.capacity - s.usedBytes)) })

/-- Modelled from the spec: `close()`; the entry already reflects all prior
writes. -/
def close (s : FileStore) (_file : File) : FileStore := s

/-- Modelled from the spec: `exists(path)`. -/
def pathExists (s : FileStore) (path : String) : Bool := (lookupFile s.files path).isSome

/-- Modelled from the spec: `rename(oldPath, newPath)`; fails if `oldPath` is
absent or `newPath` already exists. -/
def rename (s : FileStore) (oldPath newPath : String) : Bool × FileStore :=
  if (lookupFile s.files oldPath).isSome && !(lookupFile s.files newPath).isSome then
    (true, { s with files := moveFile s.files oldPath newPath })
  else (false, s)

/-- Modelled from the spec: `remove(path)`; fails if absent. -/
def remove (s : FileStore) (path : String) : Bool × FileStore :=
  if (lookupFile s.files path).isSome then (true, { s with files := dropFile s.files path })
  else (false, s)

/-- An empty filesystem of 1 MiB that mounts. -/
def blank : FileStore :=
  { files := [], capacity := 1048576, mountOk := true, formatOk := true, nextHandle := 1 }

/-- A filesystem that neither mounts nor formats. -/
def broken : FileStore :=
  { files := [], capacity := 0, mountOk := false, formatOk := false, nextHandle := 1 }

/-- A mounted filesystem holding a three-byte `/data.bin`. -/
def stale : FileStore :=
  { files := [("/data.bin", [1, 2, 3])], capacity := 1048576, mountOk := true,
    formatOk := true, nextHandle := 1 }

/-- An empty mounted filesystem of 131 bytes: room for the five lines
`writeTestFile` writes when `millis()` returns 0, and for nothing more. -/
def roomForFive : FileStore :=
  { files := [], capacity := 131, mountOk := true, formatOk := true, nextHandle := 1 }

/-- A mounted filesystem holding two files. -/
def twoFiles : FileStore :=
  { files := [("/a.txt", [104, 105]), ("/b.bin", [0])], capacity := 1048576,
    mountOk := true, formatOk := true, nextHandle := 1 }

end FileStore

/-- Modelled from the spec: the FileStore as the `SPIFFS` object of the
sketch. -/
def fileStoreSPIFFS : SPIFFSClass FileStore where
  begin := FileStore.mount
  openFile := FileStore.openFile
  write := FileStore.write
  close := FileStore.close
  pathExists := fun s p => (s.pathExists p, s)
  rename := FileStore.rename
  remove := FileStore.remove
  totalBytes := FileStore.capacity
  usedBytes := FileStore.usedBytes

/-! ## GPS ingest (`loop`, lines 75-139) -/

/-- The `TinyGPSPlus` decoder object: `encode`, `location.isUpdated()` and the
field accessors `loop` calls, as functions of an arbitrary decoder state.  A
field value is carried as a number (the bit pattern, for a `double`). -/
structure TinyGPSPlus (γ : Type) where
  encode : γ → Nat → Bool × γ
  isUpdated : γ → Bool
  field : γ → Field → Nat × γ

section GPS
variable {γ : Type}

/-- The drain loop (lines 78-80):
`while (gpsSerial.available() > 0) gps.encode(gpsSerial.read());` over the
bytes buffered on the serial link.  Returns the decoder state, the bytes left
in the buffer and the calls issued. -/
def drainLoop (G : TinyGPSPlus γ) : List Nat → γ → γ × List Nat × List Event
  | [], g => (g, [], [.gpsAvailable 0])
  | b :: rx, g =>
    let e := G.encode g (b % 256)
    let r := drainLoop G rx e.2
    (r.1, r.2.1, .gpsAvailable (rx.length + 1) :: .gpsEncode (b % 256) :: r.2.2)

/-- The report of a fresh fix (lines 85-136). -/
def reportFix (G : TinyGPSPlus γ) (g : γ) : γ × List Event :=
  let lat := G.field g .lat
  let lng := G.field lat.2 .lng
  let age := G.field lng.2 .age
  let alt := G.field age.2 .altitude
  let spd := G.field alt.2 .speed
  let crs := G.field spd.2 .course
  let day := G.field crs.2 .day
  let mon := G.field day.2 .month
  let yr := G.field mon.2 .year
  let hr := G.field yr.2 .hour
  let mi := G.field hr.2 .minute
  let sec := G.field mi.2 .second
  let sat := G.field sec.2 .satellites
  let hd := G.field sat.2 .hdop
  (hd.2,
    ([.println (.str "========= GPS DATA ========="),
      .print (.str "Latitude: "), .gpsField .lat, .printlnDigits (.flt lat.1) 6,
      .print (.str "Longitude: "), .gpsField .lng, .printlnDigits (.flt lng.1) 6,
      .print (.str "Location Age (ms): "), .gpsField .age, .println (.int age.1)] :
      List Event) ++
    ([.print (.str "Altitude: "), .gpsField .altitude, .print (.flt alt.1),
      .println (.str " m"),
      .print (.str "Speed: "), .gpsField .speed, .print (.flt spd.1),
      .println (.str " km/h"),
      .print (.str "Course: "), .gpsField .course, .print (.flt crs.1),
      .println (.str " degrees")] : List Event) ++
    ([.print (.str "Date: "), .gpsField .day, .print (.int day.1),
      .print (.str "/"), .gpsField .month, .print (.int mon.1),
      .print (.str "/"), .gpsField .year, .println (.int yr.1)] : List Event) ++
    ([.print (.str "Time (UTC): "), .gpsField .hour, .print (.int hr.1),
      .print (.str ":"), .gpsField .minute, .print (.int mi.1),
      .print (.str ":"), .gpsField .second, .println (.int sec.1)] : List Event) ++
    ([.print (.str "Satellites: "), .gpsField .satellites, .println (.int sat.1),
      .print (.str "HDOP (accuracy): "), .gpsField .hdop, .println (.flt hd.1),
      .println (.str "-----------------------------")] : List Event))

/-- One invocation of `loop()` (lines 75-139) with `rx` buffered on the GPS
serial link. -/
def loop (G : TinyGPSPlus γ) (rx : List Nat) (g : γ) : γ × List Nat × List Event :=
  let d := drainLoop G rx g
  if G.isUpdated d.1 then
    let r := reportFix G d.1
    (r.1, d.2.1, d.2.2 ++ [.gpsIsUpdated true] ++ r.2)
  else
    (d.1, d.2.1, d.2.2 ++ [.gpsIsUpdated false])

end GPS

/-- A decoder that counts the bytes it was fed and reports a fresh fix after a
line feed. -/
def lineDecoder : TinyGPSPlus (Nat × Bool) where
  encode := fun g b => (b = 10, (g.1 + 1, b = 10))
  isUpdated := fun g => g.2
  field := fun g _ => (g.1, (g.1, false))

/-! ## `setup` (lines 40-73) -/

/-- Pins and baud rate (lines 8-16). -/
def GPS_RX_PIN : Nat := 18

/-- See `GPS_RX_PIN`. -/
def GPS_TX_PIN : Nat := 17

/-- See `GPS_RX_PIN`. -/
def BUZZER : Nat := 11

/-- See `GPS_RX_PIN`. -/
def RELAY : Nat := 12

/-- See `GPS_RX_PIN`. -/
def GPS_BAUD : Nat := 9600

/-- The calls of `setup` before the batteries (lines 41-60). -/
def setupPrelude : List Event :=
  [.serialBegin 115200,
   .delay 2000,
   .gpsSerialBegin GPS_BAUD GPS_TX_PIN GPS_RX_PIN,
   .println (.str "\n\n========================================"),
   .println (.str "ESP32-S3 GPS and SPIFFS and EEPROM Test"),
   .println (.str "========================================\n"),
   .pinMode BUZZER,
   .pinMode RELAY,
   .digitalWrite BUZZER true,
   .delay 1000,
   .digitalWrite BUZZER false,
   .delay 1000,
   .digitalWrite RELAY true,
   .delay 1000,
   .digitalWrite RELAY false]

/-- The closing banner of `setup` (lines 70-72). -/
def setupFooter : List Event :=
  [.println (.str "\n========================================"),
   .println (.str "All tests completed!"),
   .println (.str "========================================\n")]

/-- `setup` (lines 40-73): the prelude, `testEEPROM()`, a delay, `testSPIFFS()`
and the closing banner. -/
def setup {σ τ : Type} (E : EEPROMClass σ) (F : SPIFFSClass τ) (near : Nat → Nat → Bool)
    (millis : Nat) (s : σ) (t : τ) : σ × τ × List Event :=
  let e := testEEPROM E near s
  let f := testSPIFFS F millis t
  (e.1, f.1, setupPrelude ++ e.2 ++ [.delay 1000] ++ f.2 ++ setupFooter)

/-! ## Predicates on call traces -/

/-- Byte-store addresses a call touches: one for a byte access, four for an
`int` or a `float`. -/
def touched : Event → List Nat
  | .eeWrite a _ => [a]
  | .eeRead a _ => [a]
  | .eePutInt a _ => [a, a + 1, a + 2, a + 3]
  | .eeGetInt a _ => [a, a + 1, a + 2, a + 3]
  | .eePutFloat a _ => [a, a + 1, a + 2, a + 3]
  | .eeGetFloat a _ => [a, a + 1, a + 2, a + 3]
  | _ => []

/-- Every address touched by the trace lies in `[lo, hi)`. -/
def Within (lo hi : Nat) (tr : List Event) : Prop :=
  ∀ e ∈ tr, ∀ a ∈ touched e, lo ≤ a ∧ a < hi

/-- The address ranges of the self-test, in test order: byte, integer, float,
string (terminator and read-back cap included), byte array, clear region. -/
def layout : List (Nat × Nat) :=
  [(0, 1), (10, 14), (20, 24), (30, 81), (100, 105), (200, 210)]

/-- A byte-store write (`write`, `put`). -/
def isWrite : Event → Bool
  | .eeWrite _ _ => true
  | .eePutInt _ _ => true
  | .eePutFloat _ _ => true
  | _ => false

/-- A byte-store read (`read`, `get`). -/
def isRead : Event → Bool
  | .eeRead _ _ => true
  | .eeGetInt _ _ => true
  | .eeGetFloat _ _ => true
  | _ => false

/-- A byte-store commit. -/
def isCommit : Event → Bool
  | .eeCommit _ => true
  | _ => false

/-- The byte-store writes, reads and commits of a trace, in order. -/
def storeOps (tr : List Event) : List Event :=
  tr.filter (fun e => isWrite e || isRead e || isCommit e)

/-- The byte-store calls of the trace are some writes, then one commit, then
some reads. -/
def Phased (tr : List Event) : Prop :=
  ∃ ws rs ok, storeOps tr = ws ++ [.eeCommit ok] ++ rs ∧ ws ≠ [] ∧ rs ≠ [] ∧
    (∀ e ∈ ws, isWrite e = true) ∧ (∀ e ∈ rs, isRead e = true)

/-- Runs the trace from the given "uncommitted write pending" flag: `none` if
a read is issued while a write is pending, else the flag at the end. -/
def runDirty : Bool → List Event → Option Bool
  | d, [] => some d
  | d, e :: es =>
    if isWrite e then runDirty true es
    else if isCommit e then runDirty false es
    else if isRead e then (if d then none else runDirty d es)
    else runDirty d es

section EEPROM
variable {σ : Type}

/-- The traces of the six tests of `eepromBattery`, one per test. -/
def eepromChecks (E : EEPROMClass σ) (near : Nat → Nat → Bool) (s : σ) : List (List Event) :=
  let t1 := eepromTest1 E s
  let t2 := eepromTest2 E 10 12345 t1.1
  let t3 := eepromTest3 E near t2.1
  let t4 := eepromTest4 E 30 (bytesOf "ESP32-S3") t3.1
  let t5 := eepromTest5 E t4.1
  let t6 := eepromTest6 E t5.1
  [t1.2, t2.2, t3.2, t4.2, t5.2, t6.2]

end EEPROM

/-- The banners of the six EEPROM tests, in source order. -/
def eepromBanners : List String :=
  ["\nTest 1: Write/Read single byte",
   "\nTest 2: Write/Read integer",
   "\nTest 3: Write/Read float",
   "\nTest 4: Write/Read string",
   "\nTest 5: Write/Read byte array",
   "\nTest 6: Clear EEPROM section"]

/-- The banners of the nine SPIFFS tests, in source order. -/
def spiffsBanners : List String :=
  ["\nTest 1: Write text file",
   "\nTest 2: Read text file",
   "\nTest 3: Append to file",
   "\nTest 4: Write binary file",
   "\nTest 5: Read binary file",
   "\nTest 6: List all files",
   "\nTest 7: Check file existence",
   "\nTest 8: Rename file",
   "\nTest 9: Delete files"]

/-- The tests a trace runs: the banners it prints, in order. -/
def checksRun (tr : List Event) : List String :=
  tr.filterMap (fun e =>
    match e with
    | .println (.str s) => if (eepromBanners ++ spiffsBanners).contains s then some s else none
    | _ => none)

/-- A call into the byte store other than `begin`. -/
def isStoreAccess (e : Event) : Bool := isWrite e || isRead e || isCommit e

/-- A call into the filesystem other than `begin`: open, write, read, close,
exists, rename, remove or a capacity query. -/
def isFileAccess : Event → Bool
  | .fsOpen _ _ _ => true
  | .fsOpenNext _ _ => true
  | .fsWrite _ _ _ => true
  | .fsRead _ _ => true
  | .fsReadUntil _ _ => true
  | .fsClose _ => true
  | .fsExists _ _ => true
  | .fsRename _ _ _ => true
  | .fsRemove _ _ => true
  | .fsTotalBytes _ => true
  | .fsUsedBytes _ => true
  | _ => false

/-- The trace of a test that runs: its banner, then a call into the storage
under test, then the rest. -/
def Runs (banner : String) (tr : List Event) : Prop :=
  ∃ call rest, tr = .println (.str banner) :: call :: rest ∧
    (isStoreAccess call || isFileAccess call) = true

section SPIFFS
variable {τ : Type}

/-- The traces of the nine tests of `spiffsBattery`, one per test. -/
def spiffsChecks (F : SPIFFSClass τ) (millis : Nat) (t : τ) : List (List Event) :=
  let t1 := spiffsTest1 F millis t
  let t2 := spiffsTest2 F t1.1
  let t3 := spiffsTest3 F t2.1
  let t4 := spiffsTest4 F t3.1
  let t5 := spiffsTest5 F t4.1
  let t6 := spiffsTest6 F t5.1
  let t7 := spiffsTest7 F t6.1
  let t8 := spiffsTest8 F t7.1
  let t9 := spiffsTest9 F t8.1
  [t1.2, t2.2, t3.2, t4.2, t5.2, t6.2, t7.2, t8.2, t9.2]

end SPIFFS

/-- The bytes a trace feeds to the GPS decoder, in order. -/
def fedBytes (tr : List Event) : List Nat :=
  tr.filterMap (fun e => match e with | .gpsEncode b => some b | _ => none)

/-- The results of the fresh-fix checks of a trace, in order. -/
def updateChecks (tr : List Event) : List Bool :=
  tr.filterMap (fun e => match e with | .gpsIsUpdated r => some r | _ => none)

/-- The fix fields a trace reads, in order. -/
def fieldsRead (tr : List Event) : List Field :=
  tr.filterMap (fun e => match e with | .gpsField f => some f | _ => none)

/-- A console output call. -/
def isConsole : Event → Bool
  | .print _ => true
  | .println _ => true
  | .printlnDigits _ _ => true
  | .printf _ _ => true
  | _ => false

/-- The fourteen fields of a fix, in the order the report reads them. -/
def allFields : List Field :=
  [.lat, .lng, .age, .altitude, .speed, .course, .day, .month, .year, .hour, .minute,
   .second, .satellites, .hdop]

/-- The console argument a field value is printed as: the `double` fields as
floating-point numbers, the others as integers. -/
def fieldArg : Field → Nat → Arg
  | .lat, v => .flt v
  | .lng, v => .flt v
  | .altitude, v => .flt v
  | .speed, v => .flt v
  | .course, v => .flt v
  | .hdop, v => .flt v
  | _, v => .int v

/-- The values the decoder returns when the given fields are read one after
the other, each paired with its field. -/
def readFields {γ : Type} (G : TinyGPSPlus γ) : List Field → γ → List (Field × Nat)
  | [], _ => []
  | f :: fs, g => (f, (G.field g f).1) :: readFields G fs (G.field g f).2

/-- The field values a trace logs: each field read that is followed at once
by the console call printing a value, paired with that value. -/
def fieldLogs : List Event → List (Field × Arg)
  | .gpsField f :: .print a :: tr => (f, a) :: fieldLogs tr
  | .gpsField f :: .println a :: tr => (f, a) :: fieldLogs tr
  | .gpsField f :: .printlnDigits a _ :: tr => (f, a) :: fieldLogs tr
  | _ :: tr => fieldLogs tr
  | [] => []

/-- The numbers a trace prints on the console (every console argument that is
not a string literal), in order. -/
def valuesPrinted (tr : List Event) : List Arg :=
  tr.filterMap (fun e =>
    match e with
    | .print (.str _) => none
    | .println (.str _) => none
    | .print a => some a
    | .println a => some a
    | .printlnDigits a _ => some a
    | _ => none)

/-- The text lines a trace prints on the console (the string literals), in
order. -/
def labelsPrinted (tr : List Event) : List String :=
  tr.filterMap (fun e =>
    match e with
    | .print (.str s) => some s
    | .println (.str s) => some s
    | _ => none)

/-- The text the report of a fresh fix prints around the field values (lines
85-136), in order. -/
def fixLabels : List String :=
  ["========= GPS DATA =========", "Latitude: ", "Longitude: ", "Location Age (ms): ",
   "Altitude: ", " m", "Speed: ", " km/h", "Course: ", " degrees", "Date: ", "/", "/",
   "Time (UTC): ", ":", ":", "Satellites: ", "HDOP (accuracy): ",
   "-----------------------------"]

/-- The decoder state after the bytes of `rx` were fed one by one, in arrival
order. -/
def feedAll {γ : Type} (G : TinyGPSPlus γ) (rx : List Nat) (g : γ) : γ :=
  rx.foldl (fun g b => (G.encode g (b % 256)).2) g

/-- The handles a trace obtains from a successful `open` or `openNextFile`,
in order. -/
def opened (tr : List Event) : List Nat :=
  tr.filterMap (fun e =>
    match e with
    | .fsOpen _ _ (some h) => some h
    | .fsOpenNext _ (some h) => some h
    | _ => none)

/-- The handles a trace passes to `close()`, in order. -/
def closed (tr : List Event) : List Nat :=
  tr.filterMap (fun e => match e with | .fsClose h => some h | _ => none)

/-- The bytes a trace reads with `file.read()`, in order. -/
def bytesRead (tr : List Event) : List Nat :=
  tr.filterMap (fun e => match e with | .fsRead _ b => some b | _ => none)

/-- The line "✓ Binary file read successfully" of test 5. -/
def binaryReadOk : Event := .println (.str "✓ Binary file read successfully")

/-- Modelled from the spec: the FileStore on a flash with room for three more
bytes, where `writeBytes(span) -> bytesWritten` stores the first three bytes of
its span and returns that count. -/
def nearlyFullSPIFFS : SPIFFSClass FileStore :=
  { fileStoreSPIFFS with write := fun s file span => FileStore.write s file (span.take 3) }

/-- The lines a trace echoes with `printf("  %s\n", line)`, in order. -/
def echoed (tr : List Event) : List (List Nat) :=
  tr.filterMap (fun e => match e with | .printf _ [.bytes l] => some l | _ => none)

/-- The five lines `writeTestFile` writes, each as the bytes before its line
feed; a line written with `println` ends in the CR of its CR LF terminator. -/
def writtenLines (millis : Nat) : List (List Nat) :=
  [bytesOf "ESP32-S3 SPIFFS Test File" ++ [13],
   bytesOf "=========================" ++ [13],
   bytesOf "Line 1: Hello from ESP32-S3!" ++ [13],
   bytesOf "Line 2: SPIFFS is working!" ++ [13],
   bytesOf "Line 3: Millis = " ++ formatUnsigned (millis % 4294967296)]

/-- The two lines the append step of test 3 writes. -/
def appendedLines : List (List Nat) :=
  [bytesOf "Appended line 1" ++ [13], bytesOf "Appended line 2" ++ [13]]

/-- The bytes of a file made of the given lines, each followed by a line
feed. -/
def textOf : List (List Nat) → List Nat
  | [] => []
  | l :: ls => l ++ 10 :: textOf ls

/-! ## Lemmas on the ByteStore -/
namespace ByteStore

theorem writeByte_capacity (s : ByteStore) (a v : Nat) : (s.writeByte a v).capacity = s.capacity := by
  unfold writeByte; split <;> rfl

theorem writeByte_length (s : ByteStore) (a v : Nat) :
    (s.writeByte a v).mirror.length = s.mirror.length := by
  unfold writeByte; split <;> simp

theorem writeByte_mediumOk (s : ByteStore) (a v : Nat) :
    (s.writeByte a v).mediumOk = s.mediumOk := by
  unfold writeByte; split <;> rfl

theorem readByte_writeByte_same (s : ByteStore) (a v : Nat) (h : a < s.capacity)
    (hl : s.capacity = s.mirror.length) : (s.writeByte a v).readByte a = v % 256 := by
  unfold writeByte readByte
  rw [if_pos h]
  simp [List.getElem?_set, hl ▸ h]

theorem readByte_writeByte_ne (s : ByteStore) (a b v : Nat) (h : a ≠ b) :
    (s.writeByte a v).readByte b = s.readByte b := by
  unfold writeByte readByte
  split
  · simp [List.getElem?_set_ne h]
  · rfl

theorem writeBytes_capacity (s : ByteStore) (a : Nat) (bs : List Nat) :
    (s.writeBytes a bs).capacity = s.capacity := by
  induction bs generalizing s a with
  | nil => rfl
  | cons b bs ih => simp [writeBytes, ih, writeByte_capacity]

theorem writeBytes_length (s : ByteStore) (a : Nat) (bs : List Nat) :
    (s.writeBytes a bs).mirror.length = s.mirror.length := by
  induction bs generalizing s a with
  | nil => rfl
  | cons b bs ih => simp [writeBytes, ih, writeByte_length]

theorem writeBytes_mediumOk (s : ByteStore) (a : Nat) (bs : List Nat) :
    (s.writeBytes a bs).mediumOk = s.mediumOk := by
  induction bs generalizing s a with
  | nil => rfl
  | cons b bs ih => simp [writeBytes, ih, writeByte_mediumOk]

theorem readByte_writeBytes_lt (s : ByteStore) (a b : Nat) (bs : List Nat) (h : b < a) :
    (s.writeBytes a bs).readByte b = s.readByte b := by
  induction bs generalizing s a with
  | nil => rfl
  | cons c cs ih =>
    simp only [writeBytes]
    rw [ih _ _ (by omega), readByte_writeByte_ne _ _ _ _ (by omega)]

theorem readBytes_writeBytes (s : ByteStore) (a : Nat) (bs : List Nat)
    (h : a + bs.length ≤ s.capacity) (hl : s.capacity = s.mirror.length) :
    (s.writeBytes a bs).readBytes a bs.length = bs.map (fun b => b % 256) := by
  induction bs generalizing s a with
  | nil => rfl
  | cons c cs ih =>
    simp only [List.length_cons] at h
    simp only [writeBytes, List.length_cons, readBytes, List.map_cons]
    rw [readByte_writeBytes_lt _ _ _ _ (by omega),
      readByte_writeByte_same _ _ _ (by omega) hl,
      ih _ _ (by rw [writeByte_capacity]; omega) (by rw [writeByte_capacity, writeByte_length]; exact hl)]

theorem commit_mirror (s : ByteStore) : s.commit.2.mirror = s.mirror := by
  unfold commit; split <;> rfl

theorem commit_fst (s : ByteStore) : s.commit.1 = s.mediumOk := by
  unfold commit; split <;> simp_all

theorem readBytes_congr (s t : ByteStore) (h : s.mirror = t.mirror) (a n : Nat) :
    s.readBytes a n = t.readBytes a n := by
  induction n generalizing a with
  | zero => rfl
  | succ n ih => simp [readBytes, readByte, h, ih]

theorem int32_round_trip (v : Int) (h1 : -2147483648 ≤ v) (h2 : v < 2147483648) :
    decodeInt32 (word32 ((bytes32 (encodeInt32 v)).map (fun b => b % 256))) = v := by
  simp only [bytes32, word32, List.map, decodeInt32, encodeInt32]
  have e : (v % 4294967296).toNat < 4294967296 := by omega
  generalize hu : (v % 4294967296).toNat = u at *
  have hu2 : (u : Int) = v % 4294967296 := by omega
  split <;> omega

theorem getInt_putInt (s : ByteStore) (a : Nat) (v : Int) (hm : s.Mounted 512)
    (ha : a + 4 ≤ 512) (h1 : -2147483648 ≤ v) (h2 : v < 2147483648) :
    (s.putInt a v).commit.2.getInt a = v := by
  obtain ⟨hc, hl⟩ := hm
  unfold getInt putInt
  rw [if_pos (by omega)]
  rw [readBytes_congr _ _ (commit_mirror _)]
  have := readBytes_writeBytes s a (bytes32 (encodeInt32 v)) (by simp [bytes32]; omega) (by omega)
  simp only [bytes32, List.length_cons, List.length_nil] at this
  simp only [bytes32]
  rw [this]
  exact int32_round_trip v h1 h2

end ByteStore

namespace ByteStore

theorem mount_mounted (s : ByteStore) (n : Nat) (h : (s.mount n).1 = true) :
    (s.mount n).2.Mounted n := by
  unfold mount at h ⊢
  by_cases hm : s.mediumOk = true
  · simp [Mounted, hm]
  · simp [hm] at h

theorem writeBytes_append (s : ByteStore) (a : Nat) (xs ys : List Nat) :
    s.writeBytes a (xs ++ ys) = (s.writeBytes a xs).writeBytes (a + xs.length) ys := by
  induction xs generalizing s a with
  | nil => rfl
  | cons x xs ih =>
    show (s.writeByte a x).writeBytes (a + 1) (xs ++ ys) = _
    rw [ih]
    simp only [writeBytes, List.length_cons]
    congr 1
    omega

theorem writeByte_mod (s : ByteStore) (a v : Nat) : s.writeByte a (v % 256) = s.writeByte a v := by
  unfold writeByte
  simp

end ByteStore

theorem writeLoop_byteStore (addr : Nat) (bs : List Nat) (i : Nat) (s : ByteStore) :
    (writeLoop byteStoreEEPROM addr bs i s).1 = s.writeBytes (addr + i) bs := by
  induction bs generalizing i s with
  | nil => rfl
  | cons b bs ih =>
    simp only [writeLoop, ByteStore.writeBytes]
    rw [ih]
    simp only [byteStoreEEPROM, ByteStore.writeByte_mod]
    rfl

theorem readStringLoop_byteStore (addr : Nat) (s : ByteStore) (rest : List Nat) (i : Nat)
    (acc : List Nat) (hc : ∀ c ∈ rest, 0 < c ∧ c < 256)
    (hmem : s.readBytes (addr + i) (rest.length + 1) = rest ++ [0]) :
    (readStringLoop byteStoreEEPROM addr i acc s).2.1 = acc ++ rest.take (50 - i) := by
  induction rest generalizing i acc with
  | nil =>
    rw [readStringLoop]
    simp only [List.length_nil, Nat.zero_add, ByteStore.readBytes, List.nil_append,
      List.cons.injEq, and_true] at hmem
    simp [byteStoreEEPROM, hmem]
  | cons c cs ih =>
    rw [readStringLoop]
    simp only [List.length_cons, ByteStore.readBytes, List.cons_append, List.cons.injEq] at hmem
    obtain ⟨h0, h1⟩ := hmem
    have hcc := hc c (List.mem_cons_self _ _)
    have hmod : c % 256 = c := Nat.mod_eq_of_lt hcc.2
    simp only [byteStoreEEPROM, h0, hmod]
    by_cases hi : i < 50
    · have hne : c ≠ 0 := by omega
      rw [if_pos ⟨hne, hi⟩]
      simp only
      have := ih (i + 1) (acc ++ [c]) (fun x hx => hc x (List.mem_cons_of_mem _ hx))
        (by rw [← h1]; congr 1)
      simp only [byteStoreEEPROM] at this
      rw [this]
      have e : 50 - i = (50 - (i + 1)) + 1 := by omega
      rw [e, List.take_succ_cons]
      simp
    · rw [if_neg (by omega)]
      have e : 50 - i = 0 := by omega
      simp [e]

/-- C1: on a mounted 512-byte ByteStore, for every signed 32-bit integer `v`
and every address `a` with `a + 4 <= 512`, `put(a, v); commit(); get(a)` yields
exactly `v`, and test 2 run with these values logs the verdict PASS. -/
theorem int_round_trip (s : ByteStore) (a : Nat) (v : Int) (hm : s.Mounted EEPROM_SIZE)
    (ha : a + 4 ≤ EEPROM_SIZE) (hlo : -2147483648 ≤ v) (hhi : v < 2147483648) :
    (byteStoreEEPROM.getInt
        (byteStoreEEPROM.commit (byteStoreEEPROM.putInt s a v)).2 a).1 = v ∧
    (eepromTest2 byteStoreEEPROM a v s).2 =
      [.println (.str "\nTest 2: Write/Read integer"),
       .eePutInt a v,
       .eeCommit s.mediumOk,
       .eeGetInt a v,
       .printf "  Written: %d, Read: %d - %s\n" [.int v, .int v, .str "PASS"]] := by
  have key := ByteStore.getInt_putInt s a v hm ha hlo hhi
  have hw : wrapInt32 v = v := by unfold wrapInt32; omega
  have hok : (s.putInt a v).commit.1 = s.mediumOk := by
    rw [ByteStore.commit_fst]
    unfold ByteStore.putInt
    split
    · exact ByteStore.writeBytes_mediumOk _ _ _
    · rfl
  refine ⟨key, ?_⟩
  simp only [eepromTest2, byteStoreEEPROM, key, hw, hok, verdict, beq_self_eq_true, if_true]

/-- Witness of C1: a fresh store mounted with 512 bytes, 12345 at address 10. -/
theorem int_round_trip_witness :
    (ByteStore.fresh.mount 512).1 = true ∧
    (byteStoreEEPROM.getInt
        (byteStoreEEPROM.commit
          (byteStoreEEPROM.putInt (ByteStore.fresh.mount 512).2 10 12345)).2 10).1 = 12345 ∧
    (eepromTest2 byteStoreEEPROM 10 12345 (ByteStore.fresh.mount 512).2).2 =
      [.println (.str "\nTest 2: Write/Read integer"),
       .eePutInt 10 12345,
       .eeCommit true,
       .eeGetInt 10 12345,
       .printf "  Written: %d, Read: %d - %s\n" [.int 12345, .int 12345, .str "PASS"]] :=
  ⟨by decide,
   int_round_trip (ByteStore.fresh.mount 512).2 10 12345
     (ByteStore.mount_mounted _ _ (by decide)) (by decide) (by decide) (by decide)⟩

theorem readBack_byteStore (s : ByteStore) (str : List Nat) (hm : s.Mounted EEPROM_SIZE)
    (hc : ∀ c ∈ str, 0 < c ∧ c < 256) (hfit : 30 + str.length + 1 ≤ EEPROM_SIZE) :
    (readStringLoop byteStoreEEPROM 30 0 []
      (byteStoreEEPROM.commit
        (byteStoreEEPROM.write (writeLoop byteStoreEEPROM 30 str 0 s).1
          (30 + str.length) 0)).2).2.1 = str.take 50 := by
  obtain ⟨hcap, hlen⟩ := hm
  have hw : byteStoreEEPROM.write (writeLoop byteStoreEEPROM 30 str 0 s).1 (30 + str.length) 0
      = s.writeBytes 30 (str ++ [0]) := by
    rw [writeLoop_byteStore, ByteStore.writeBytes_append]
    rfl
  rw [hw]
  have hread := ByteStore.readBytes_writeBytes s 30 (str ++ [0])
    (by simp only [List.length_append, List.length_singleton]; unfold EEPROM_SIZE at *; omega)
    (by omega)
  have hmap : (str ++ [0]).map (fun b => b % 256) = str ++ [0] := by
    have h1 : ∀ l : List Nat, (∀ c ∈ l, c < 256) → l.map (fun b => b % 256) = l := by
      intro l hl
      induction l with
      | nil => rfl
      | cons x xs ih =>
        simp only [List.map_cons]
        rw [ih (fun c hx => hl c (List.mem_cons_of_mem _ hx)),
          Nat.mod_eq_of_lt (hl x (List.mem_cons_self _ _))]
    apply h1
    intro c hx
    rcases List.mem_append.mp hx with h | h
    · exact (hc c h).2
    · simp at h; omega
  rw [hmap] at hread
  have := readStringLoop_byteStore 30 (ByteStore.commit (s.writeBytes 30 (str ++ [0]))).2 str 0 []
    hc (by
      rw [ByteStore.readBytes_congr _ _ (ByteStore.commit_mirror _)]
      simpa using hread)
  simpa [byteStoreEEPROM] using this

/-- C2: on a mounted 512-byte ByteStore, for every string without NUL that
fits from address 30 together with its terminator, test 4 reads back exactly
the first `min(length, 50)` characters; the verdict is PASS exactly when the
string has at most 50 characters. -/
theorem string_round_trip (s : ByteStore) (str : List Nat) (hm : s.Mounted EEPROM_SIZE)
    (hc : ∀ c ∈ str, 0 < c ∧ c < 256) (hfit : 30 + str.length + 1 ≤ EEPROM_SIZE) :
    (readStringLoop byteStoreEEPROM 30 0 []
      (byteStoreEEPROM.commit
        (byteStoreEEPROM.write (writeLoop byteStoreEEPROM 30 str 0 s).1
          (30 + str.length) 0)).2).2.1 = str.take 50 ∧
    (str.take 50).length = min str.length 50 ∧
    (eepromTest4 byteStoreEEPROM 30 str s).2.getLast? =
      some (.printf "  Written: '%s', Read: '%s' - %s\n"
        [.bytes str, .bytes (str.take 50), verdict (decide (str.length ≤ 50))]) ∧
    (str.length ≤ 50 →
      (eepromTest4 byteStoreEEPROM 30 str s).2.getLast? =
        some (.printf "  Written: '%s', Read: '%s' - %s\n"
          [.bytes str, .bytes str, .str "PASS"])) := by
  have key := readBack_byteStore s str hm hc hfit
  have hlast : (eepromTest4 byteStoreEEPROM 30 str s).2.getLast? =
      some (.printf "  Written: '%s', Read: '%s' - %s\n"
        [.bytes str, .bytes (str.take 50), verdict (decide (str.length ≤ 50))]) := by
    unfold eepromTest4
    simp only [List.getLast?_append, List.getLast?_singleton, key]
    have hv : (str == str.take 50) = decide (str.length ≤ 50) := by
      by_cases h : str.length ≤ 50
      · simp [List.take_of_length_le h, h]
      · have hne : str ≠ str.take 50 := by
          intro e
          have := congrArg List.length e
          simp at this
          omega
        simp [h, hne]
    simp [hv]
  refine ⟨key, by simp [Nat.min_comm], hlast, ?_⟩
  intro hle
  rw [hlast, List.take_of_length_le hle]
  simp [verdict, hle]

/-- Witness of C2: the string "ESP32-S3" on a fresh store mounted with 512
bytes. -/
theorem string_round_trip_witness :
    (readStringLoop byteStoreEEPROM 30 0 []
      (byteStoreEEPROM.commit
        (byteStoreEEPROM.write
          (writeLoop byteStoreEEPROM 30 (bytesOf "ESP32-S3") 0 (ByteStore.fresh.mount 512).2).1
          (30 + (bytesOf "ESP32-S3").length) 0)).2).2.1 = bytesOf "ESP32-S3" ∧
    (eepromTest4 byteStoreEEPROM 30 (bytesOf "ESP32-S3") (ByteStore.fresh.mount 512).2).2.getLast? =
      some (.printf "  Written: '%s', Read: '%s' - %s\n"
        [.bytes (bytesOf "ESP32-S3"), .bytes (bytesOf "ESP32-S3"), .str "PASS"]) :=
  have h := string_round_trip (ByteStore.fresh.mount 512).2 (bytesOf "ESP32-S3")
    (ByteStore.mount_mounted _ _ (by decide)) (by decide) (by decide)
  ⟨h.1.trans (by decide), h.2.2.2 (by decide)⟩

/-! ## Address ranges and commit discipline of `testEEPROM` -/

section EEPROM
variable {σ : Type}

theorem within_nil (lo hi : Nat) : Within lo hi [] := by
  intro e he; simp at he

theorem within_append {lo hi : Nat} {a b : List Event} (ha : Within lo hi a)
    (hb : Within lo hi b) : Within lo hi (a ++ b) := by
  intro e he
  rcases List.mem_append.mp he with h | h
  · exact ha e h
  · exact hb e h

theorem within_cons {lo hi : Nat} {e : Event} {b : List Event}
    (he : ∀ a ∈ touched e, lo ≤ a ∧ a < hi) (hb : Within lo hi b) : Within lo hi (e :: b) := by
  intro x hx
  rcases List.mem_cons.mp hx with h | h
  · subst h; exact he
  · exact hb x h

theorem within_mono {lo hi lo2 hi2 : Nat} {a : List Event} (h : Within lo hi a)
    (h1 : lo2 ≤ lo) (h2 : hi ≤ hi2) : Within lo2 hi2 a := by
  intro e he x hx
  have := h e he x hx
  omega

theorem within_writeLoop (E : EEPROMClass σ) (addr : Nat) (bs : List Nat) (i : Nat) (s : σ) :
    Within (addr + i) (addr + i + bs.length) (writeLoop E addr bs i s).2 := by
  induction bs generalizing i s with
  | nil => exact within_nil _ _
  | cons b bs ih =>
    simp only [writeLoop, List.length_cons]
    apply within_cons
    · intro a ha
      simp [touched] at ha
      omega
    · exact within_mono (ih (i + 1) _) (by omega) (by omega)

theorem within_readLoop (E : EEPROMClass σ) (addr n i : Nat) (s : σ) :
    Within (addr + i) (addr + i + n) (readLoop E addr n i s).2.2 := by
  induction n generalizing i s with
  | zero => exact within_nil _ _
  | succ n ih =>
    simp only [readLoop]
    apply within_cons
    · intro a ha
      simp [touched] at ha
      omega
    · exact within_mono (ih (i + 1) _) (by omega) (by omega)

theorem within_readStringLoop (E : EEPROMClass σ) (addr : Nat) (n i : Nat)
    (acc : List Nat) (s : σ) (hn : n = 50 - i) (hi : i ≤ 50) :
    Within addr (addr + 51) (readStringLoop E addr i acc s).2.2 := by
  induction n generalizing i acc s with
  | zero =>
    rw [readStringLoop]
    have : ¬ i < 50 := by omega
    simp only [this, and_false, if_false]
    apply within_cons _ (within_nil _ _)
    intro a ha
    simp [touched] at ha
    omega
  | succ n ih =>
    rw [readStringLoop]
    split
    · apply within_cons
      · intro a ha
        simp [touched] at ha
        omega
      · exact ih (i + 1) _ _ (by omega) (by omega)
    · apply within_cons _ (within_nil _ _)
      intro a ha
      simp [touched] at ha
      omega

theorem within_printArray (lo hi : Nat) (l : List Nat) (i : Nat) :
    Within lo hi (printArray l i) := by
  induction l generalizing i with
  | nil => exact within_nil _ _
  | cons b bs ih =>
    simp only [printArray]
    exact within_cons (by simp [touched]) (ih _)

theorem within_test1 (E : EEPROMClass σ) (s : σ) : Within 0 1 (eepromTest1 E s).2 := by
  intro e he a ha
  simp only [eepromTest1, List.mem_cons, List.mem_singleton, List.not_mem_nil, or_false] at he
  rcases he with h | h | h | h | h <;> subst h <;> simp [touched, verdict] at ha <;> omega

theorem within_test2 (E : EEPROMClass σ) (v : Int) (s : σ) :
    Within 10 14 (eepromTest2 E 10 v s).2 := by
  intro e he a ha
  simp only [eepromTest2, List.mem_cons, List.mem_singleton, List.not_mem_nil, or_false] at he
  rcases he with h | h | h | h | h <;> subst h <;> simp [touched] at ha <;> omega

theorem within_test3 (E : EEPROMClass σ) (near : Nat → Nat → Bool) (s : σ) :
    Within 20 24 (eepromTest3 E near s).2 := by
  intro e he a ha
  simp only [eepromTest3, List.mem_cons, List.mem_singleton, List.not_mem_nil, or_false] at he
  rcases he with h | h | h | h | h <;> subst h <;> simp [touched] at ha <;> omega

theorem within_test4 (E : EEPROMClass σ) (s : σ) :
    Within 30 81 (eepromTest4 E 30 (bytesOf "ESP32-S3") s).2 := by
  have hl : (bytesOf "ESP32-S3").length = 8 := by decide
  unfold eepromTest4
  simp only [hl]
  refine within_append (within_append (within_append (within_append ?_ ?_) ?_) ?_) ?_
  · exact within_cons (by simp [touched]) (within_nil _ _)
  · have := within_writeLoop E 30 (bytesOf "ESP32-S3") 0 s
    rw [hl] at this
    exact within_mono this (by omega) (by omega)
  · refine within_cons ?_ (within_cons (by simp [touched]) (within_nil _ _))
    intro a ha
    simp [touched] at ha
    omega
  · exact within_readStringLoop E 30 50 0 [] _ rfl (by omega)
  · exact within_cons (by simp [touched]) (within_nil _ _)

theorem within_test5 (E : EEPROMClass σ) (s : σ) : Within 100 105 (eepromTest5 E s).2 := by
  unfold eepromTest5
  simp only
  refine within_append (within_append (within_append (within_append (within_append
    (within_append (within_append (within_append ?_ ?_) ?_) ?_) ?_) ?_) ?_) ?_) ?_
  · exact within_cons (by simp [touched]) (within_nil _ _)
  · exact within_mono (within_writeLoop E 100 [10, 20, 30, 40, 50] 0 s) (by omega) (by simp)
  · exact within_cons (by simp [touched]) (within_nil _ _)
  · exact within_mono (within_readLoop E 100 5 0 _) (by omega) (by omega)
  · exact within_cons (by simp [touched]) (within_nil _ _)
  · exact within_printArray _ _ _ _
  · exact within_cons (by simp [touched]) (within_nil _ _)
  · exact within_printArray _ _ _ _
  · exact within_cons (by simp [touched]) (within_cons (by simp [touched]) (within_nil _ _))

theorem within_test6 (E : EEPROMClass σ) (s : σ) : Within 200 210 (eepromTest6 E s).2 := by
  unfold eepromTest6
  simp only
  refine within_append (within_append (within_append (within_append ?_ ?_) ?_) ?_) ?_
  · exact within_cons (by simp [touched]) (within_nil _ _)
  · exact within_mono (within_writeLoop E 200 (List.replicate 10 255) 0 s) (by omega) (by simp)
  · exact within_cons (by simp [touched]) (within_nil _ _)
  · exact within_mono (within_readLoop E 200 10 0 _) (by omega) (by omega)
  · exact within_cons (by simp [touched]) (within_nil _ _)

/-- C3: whatever the device returns, the i-th test of `testEEPROM` touches
only the i-th address range of the layout (byte `[0,1)`, integer `[10,14)`,
float `[20,24)`, string with terminator and read-back cap `[30,81)`, array
`[100,105)`, clear region `[200,210)`); the ranges are pairwise disjoint and
lie below 512; and every address `testEEPROM` reads or writes lies in
`[0, 512)`. -/
theorem layout_disjoint_in_range (E : EEPROMClass σ) (near : Nat → Nat → Bool) (s : σ) :
    List.Forall₂ (fun r tr => Within r.1 r.2 tr) layout (eepromChecks E near s) ∧
    layout.Pairwise (fun r q => r.2 ≤ q.1) ∧
    (∀ r ∈ layout, r.1 < r.2 ∧ r.2 ≤ EEPROM_SIZE) ∧
    Within 0 EEPROM_SIZE (testEEPROM E near s).2 := by
  refine ⟨?_, by decide, by decide, ?_⟩
  · exact .cons (within_test1 E _) (.cons (within_test2 E _ _) (.cons (within_test3 E near _)
      (.cons (within_test4 E _) (.cons (within_test5 E _) (.cons (within_test6 E _) .nil)))))
  unfold testEEPROM
  simp only
  split
  · intro e he a ha
    simp only [List.mem_cons, List.mem_singleton, List.not_mem_nil, or_false] at he
    rcases he with h | h | h <;> subst h <;> simp [touched] at ha
  · refine within_append (within_append ?_ ?_) ?_
    · intro e he a ha
      simp only [List.mem_cons, List.mem_singleton, List.not_mem_nil, or_false] at he
      rcases he with h | h | h | h <;> subst h <;> simp [touched] at ha
    · unfold eepromBattery
      simp only [EEPROM_SIZE]
      refine within_append (within_append (within_append (within_append (within_append
        ?_ ?_) ?_) ?_) ?_) ?_
      · exact within_mono (within_test1 E _) (by omega) (by omega)
      · exact within_mono (within_test2 E _ _) (by omega) (by omega)
      · exact within_mono (within_test3 E near _) (by omega) (by omega)
      · exact within_mono (within_test4 E _) (by omega) (by omega)
      · exact within_mono (within_test5 E _) (by omega) (by omega)
      · exact within_mono (within_test6 E _) (by omega) (by omega)
    · exact within_cons (by simp [touched]) (within_nil _ _)

end EEPROM

section EEPROM
variable {σ : Type}

theorem storeOps_append (a b : List Event) : storeOps (a ++ b) = storeOps a ++ storeOps b := by
  unfold storeOps
  exact List.filter_append _ _

theorem storeOps_of_forall_write {l : List Event} (h : ∀ e ∈ l, isWrite e = true) :
    storeOps l = l := by
  unfold storeOps
  apply List.filter_eq_self.mpr
  intro e he
  simp [h e he]

theorem storeOps_of_forall_read {l : List Event} (h : ∀ e ∈ l, isRead e = true) :
    storeOps l = l := by
  unfold storeOps
  apply List.filter_eq_self.mpr
  intro e he
  simp [h e he]

theorem writeLoop_all_write (E : EEPROMClass σ) (addr : Nat) (bs : List Nat) (i : Nat) (s : σ) :
    ∀ e ∈ (writeLoop E addr bs i s).2, isWrite e = true := by
  induction bs generalizing i s with
  | nil => intro e he; simp [writeLoop] at he
  | cons b bs ih =>
    intro e he
    simp only [writeLoop, List.mem_cons] at he
    rcases he with h | h
    · subst h; rfl
    · exact ih _ _ e h

theorem readLoop_all_read (E : EEPROMClass σ) (addr n i : Nat) (s : σ) :
    ∀ e ∈ (readLoop E addr n i s).2.2, isRead e = true := by
  induction n generalizing i s with
  | zero => intro e he; simp [readLoop] at he
  | succ n ih =>
    intro e he
    simp only [readLoop, List.mem_cons] at he
    rcases he with h | h
    · subst h; rfl
    · exact ih _ _ e h

theorem readStringLoop_all_read (E : EEPROMClass σ) (addr : Nat) (n i : Nat)
    (acc : List Nat) (s : σ) (hn : n = 51 - i) :
    (∀ e ∈ (readStringLoop E addr i acc s).2.2, isRead e = true) ∧
    (readStringLoop E addr i acc s).2.2 ≠ [] := by
  induction n generalizing i acc s with
  | zero =>
    rw [readStringLoop]
    have : ¬ i < 50 := by omega
    simp [this, isRead]
  | succ n ih =>
    rw [readStringLoop]
    split
    · have := ih (i + 1) (acc ++ [(E.read s (addr + i)).1 % 256]) (E.read s (addr + i)).2 (by omega)
      refine ⟨?_, by simp⟩
      intro e he
      simp only [List.mem_cons] at he
      rcases he with h | h
      · subst h; rfl
      · exact this.1 e h
    · simp [isRead]

theorem storeOps_single_other {e : Event} (h1 : isWrite e = false) (h2 : isRead e = false)
    (h3 : isCommit e = false) (l : List Event) : storeOps (e :: l) = storeOps l := by
  unfold storeOps
  rw [List.filter_cons]
  simp [h1, h2, h3]

theorem storeOps_printArray (l : List Nat) (i : Nat) : storeOps (printArray l i) = [] := by
  induction l generalizing i with
  | nil => rfl
  | cons b bs ih =>
    simp only [printArray]
    rw [storeOps_single_other (e := Event.printf _ _) rfl rfl rfl]
    exact ih _

theorem phased_test1 (E : EEPROMClass σ) (s : σ) : Phased (eepromTest1 E s).2 :=
  ⟨[.eeWrite 0 42], [.eeRead 0 ((E.read (E.commit (E.write s 0 42)).2 0).1 % 256)],
    (E.commit (E.write s 0 42)).1, by
      simp [eepromTest1, storeOps, List.filter_cons, isWrite, isRead, isCommit],
    by simp, by simp, by simp [isWrite], by simp [isRead]⟩

theorem phased_test2 (E : EEPROMClass σ) (a : Nat) (v : Int) (s : σ) :
    Phased (eepromTest2 E a v s).2 :=
  ⟨[.eePutInt a v], [.eeGetInt a (wrapInt32 (E.getInt (E.commit (E.putInt s a v)).2 a).1)],
    (E.commit (E.putInt s a v)).1, by
      simp [eepromTest2, storeOps, List.filter_cons, isWrite, isRead, isCommit],
    by simp, by simp, by simp [isWrite], by simp [isRead]⟩

theorem phased_test3 (E : EEPROMClass σ) (near : Nat → Nat → Bool) (s : σ) :
    Phased (eepromTest3 E near s).2 :=
  ⟨[.eePutFloat 20 testFloat],
    [.eeGetFloat 20 ((E.getFloat (E.commit (E.putFloat s 20 testFloat)).2 20).1 % 4294967296)],
    (E.commit (E.putFloat s 20 testFloat)).1, by
      simp [eepromTest3, storeOps, List.filter_cons, isWrite, isRead, isCommit],
    by simp, by simp, by simp [isWrite], by simp [isRead]⟩

theorem phased_test4 (E : EEPROMClass σ) (addr : Nat) (str : List Nat) (s : σ) :
    Phased (eepromTest4 E addr str s).2 := by
  unfold eepromTest4
  simp only
  generalize hw : writeLoop E addr str 0 s = w
  generalize hc : E.commit (E.write w.1 (addr + str.length) 0) = c
  generalize hr : readStringLoop E addr 0 [] c.2 = r
  have hW : ∀ e ∈ w.2, isWrite e = true := hw ▸ writeLoop_all_write E addr str 0 s
  have hR := readStringLoop_all_read E addr 51 0 [] c.2 rfl
  rw [hr] at hR
  refine ⟨w.2 ++ [.eeWrite (addr + str.length) 0], r.2.2, c.1, ?_, by simp, hR.2, ?_, hR.1⟩
  · simp only [storeOps_append, storeOps_of_forall_write hW, storeOps_of_forall_read hR.1]
    simp [storeOps, List.filter_cons, isWrite, isRead, isCommit]
  · intro e he
    rcases List.mem_append.mp he with h | h
    · exact hW e h
    · simp at h; subst h; rfl

theorem phased_test5 (E : EEPROMClass σ) (s : σ) : Phased (eepromTest5 E s).2 := by
  unfold eepromTest5
  simp only
  generalize hw : writeLoop E 100 [10, 20, 30, 40, 50] 0 s = w
  generalize hc : E.commit w.1 = c
  generalize hr : readLoop E 100 5 0 c.2 = r
  have hW : ∀ e ∈ w.2, isWrite e = true := hw ▸ writeLoop_all_write E 100 _ 0 s
  have hR : ∀ e ∈ r.2.2, isRead e = true := hr ▸ readLoop_all_read E 100 5 0 c.2
  have hWne : w.2 ≠ [] := by rw [← hw]; simp [writeLoop]
  have hRne : r.2.2 ≠ [] := by rw [← hr]; simp [readLoop]
  refine ⟨w.2, r.2.2, c.1, ?_, hWne, hRne, hW, hR⟩
  simp only [storeOps_append, storeOps_of_forall_write hW, storeOps_of_forall_read hR,
    storeOps_printArray]
  simp [storeOps, List.filter_cons, isWrite, isRead, isCommit]

theorem phased_test6 (E : EEPROMClass σ) (s : σ) : Phased (eepromTest6 E s).2 := by
  unfold eepromTest6
  simp only
  generalize hw : writeLoop E 200 (List.replicate 10 255) 0 s = w
  generalize hc : E.commit w.1 = c
  generalize hr : readLoop E 200 10 0 c.2 = r
  have hW : ∀ e ∈ w.2, isWrite e = true := hw ▸ writeLoop_all_write E 200 _ 0 s
  have hR : ∀ e ∈ r.2.2, isRead e = true := hr ▸ readLoop_all_read E 200 10 0 c.2
  have hWne : w.2 ≠ [] := by rw [← hw]; simp [writeLoop, List.replicate]
  have hRne : r.2.2 ≠ [] := by rw [← hr]; simp [readLoop]
  refine ⟨w.2, r.2.2, c.1, ?_, hWne, hRne, hW, hR⟩
  simp only [storeOps_append, storeOps_of_forall_write hW, storeOps_of_forall_read hR]
  simp [storeOps, List.filter_cons, isWrite, isRead, isCommit]

theorem eepromChecks_phased (E : EEPROMClass σ) (near : Nat → Nat → Bool) (s : σ) :
    ∀ t ∈ eepromChecks E near s, Phased t := by
  intro t ht
  simp only [eepromChecks, List.mem_cons, List.mem_singleton, List.not_mem_nil, or_false] at ht
  rcases ht with h | h | h | h | h | h <;> subst h
  · exact phased_test1 E _
  · exact phased_test2 E _ _ _
  · exact phased_test3 E near _
  · exact phased_test4 E _ _ _
  · exact phased_test5 E _
  · exact phased_test6 E _

theorem eepromBattery_trace (E : EEPROMClass σ) (near : Nat → Nat → Bool) (s : σ) :
    (eepromBattery E near s).2 = (eepromChecks E near s).flatten := by
  simp [eepromBattery, eepromChecks, List.flatten]

end EEPROM

theorem runDirty_storeOps (d : Bool) (tr : List Event) :
    runDirty d tr = runDirty d (storeOps tr) := by
  induction tr generalizing d with
  | nil => rfl
  | cons e es ih =>
    unfold storeOps at ih ⊢
    rw [List.filter_cons]
    by_cases hw : isWrite e = true
    · simp only [hw, Bool.true_or, if_true, runDirty]; exact ih _
    · by_cases hc : isCommit e = true
      · simp only [hc, Bool.or_true, if_true, runDirty, hw, if_false, Bool.false_eq_true]
        exact ih _
      · by_cases hr : isRead e = true
        · simp only [hr, Bool.or_true, Bool.true_or, if_true, runDirty, hw, hc, if_false,
            Bool.false_eq_true]
          cases d
          · simp only [Bool.false_eq_true, if_false]; exact ih _
          · simp
        · simp only [Bool.not_eq_true] at hw hc hr
          simp only [hw, hc, hr, Bool.or_self, Bool.false_eq_true, if_false, runDirty]
          exact ih _

theorem runDirty_writes (d : Bool) (ws rest : List Event) (h : ∀ e ∈ ws, isWrite e = true)
    (hne : ws ≠ []) : runDirty d (ws ++ rest) = runDirty true rest := by
  induction ws generalizing d with
  | nil => exact absurd rfl hne
  | cons e es ih =>
    have he := h e (List.mem_cons_self _ _)
    simp only [List.cons_append, runDirty, he, if_true]
    cases es with
    | nil => rfl
    | cons x xs =>
      exact ih true (fun y hy => h y (List.mem_cons_of_mem _ hy)) (by simp)

theorem isWrite_of_isRead {e : Event} (h : isRead e = true) : isWrite e = false := by
  cases e <;> simp_all [isRead, isWrite]

theorem isCommit_of_isRead {e : Event} (h : isRead e = true) : isCommit e = false := by
  cases e <;> simp_all [isRead, isCommit]

theorem isCommit_of_isWrite {e : Event} (h : isWrite e = true) : isCommit e = false := by
  cases e <;> simp_all [isWrite, isCommit]

theorem runDirty_reads (rs rest : List Event) (h : ∀ e ∈ rs, isRead e = true) :
    runDirty false (rs ++ rest) = runDirty false rest := by
  induction rs with
  | nil => rfl
  | cons e es ih =>
    have he := h e (List.mem_cons_self _ _)
    simp only [List.cons_append, runDirty, isWrite_of_isRead he, isCommit_of_isRead he, he,
      if_true, if_false, Bool.false_eq_true]
    exact ih (fun y hy => h y (List.mem_cons_of_mem _ hy))

theorem runDirty_phased (d : Bool) (t rest : List Event) (h : Phased t) :
    runDirty d (storeOps t ++ rest) = runDirty false rest := by
  obtain ⟨ws, rs, ok, e, hne, _, hw, hr⟩ := h
  rw [e, List.append_assoc, List.append_assoc, runDirty_writes d ws _ hw hne]
  simp only [List.singleton_append, runDirty, isWrite, isCommit, if_true, if_false,
    Bool.false_eq_true]
  exact runDirty_reads rs rest hr

theorem runDirty_checks (L : List (List Event)) (h : ∀ t ∈ L, Phased t) :
    runDirty false ((L.map storeOps).flatten) = some false := by
  induction L with
  | nil => rfl
  | cons t ts ih =>
    simp only [List.map_cons, List.flatten_cons]
    rw [runDirty_phased false t _ (h t (List.mem_cons_self _ _))]
    exact ih (fun x hx => h x (List.mem_cons_of_mem _ hx))

theorem countP_commit_phased (t : List Event) (h : Phased t) :
    (storeOps t).countP isCommit = 1 := by
  obtain ⟨ws, rs, ok, e, _, _, hw, hr⟩ := h
  rw [e, List.countP_append, List.countP_append]
  have h1 : ws.countP isCommit = 0 := by
    rw [List.countP_eq_zero]
    intro x hx
    simp [isCommit_of_isWrite (hw x hx)]
  have h2 : rs.countP isCommit = 0 := by
    rw [List.countP_eq_zero]
    intro x hx
    simp [isCommit_of_isRead (hr x hx)]
  rw [h1, h2]
  simp [List.countP_cons, isCommit]

theorem countP_commit_checks (L : List (List Event)) (h : ∀ t ∈ L, Phased t) :
    ((L.map storeOps).flatten).countP isCommit = L.length := by
  induction L with
  | nil => rfl
  | cons t ts ih =>
    simp only [List.map_cons, List.flatten_cons, List.countP_append, List.length_cons]
    rw [countP_commit_phased t (h t (List.mem_cons_self _ _)),
      ih (fun x hx => h x (List.mem_cons_of_mem _ hx))]
    omega

theorem storeOps_flatten (L : List (List Event)) :
    storeOps L.flatten = (L.map storeOps).flatten := by
  unfold storeOps
  rw [List.filter_flatten]

section EEPROM
variable {σ : Type}

theorem testEEPROM_storeOps (E : EEPROMClass σ) (near : Nat → Nat → Bool) (s : σ)
    (hb : (E.begin s EEPROM_SIZE).1 = true) :
    storeOps (testEEPROM E near s).2 =
      ((eepromChecks E near (E.begin s EEPROM_SIZE).2).map storeOps).flatten := by
  unfold testEEPROM
  simp only [hb, Bool.true_eq_false, if_false]
  rw [storeOps_append, storeOps_append, eepromBattery_trace, storeOps_flatten]
  simp [storeOps, List.filter_cons, isWrite, isRead, isCommit]

/-- C9: after a successful `begin`, the byte-store calls of `testEEPROM` are
those of its six tests in order; each test issues its writes, then exactly one
commit, then its reads; so no read is issued while a write is uncommitted, no
commit covers writes of two tests, and six commits are issued in total. -/
theorem commit_after_each_write (E : EEPROMClass σ) (near : Nat → Nat → Bool) (s : σ)
    (hb : (E.begin s EEPROM_SIZE).1 = true) :
    storeOps (testEEPROM E near s).2 =
      ((eepromChecks E near (E.begin s EEPROM_SIZE).2).map storeOps).flatten ∧
    (eepromChecks E near (E.begin s EEPROM_SIZE).2).length = 6 ∧
    (∀ t ∈ eepromChecks E near (E.begin s EEPROM_SIZE).2, Phased t) ∧
    runDirty false (testEEPROM E near s).2 = some false ∧
    (testEEPROM E near s).2.countP isCommit = 6 := by
  have h1 := testEEPROM_storeOps E near s hb
  have h2 := eepromChecks_phased E near (E.begin s EEPROM_SIZE).2
  refine ⟨h1, rfl, h2, ?_, ?_⟩
  · rw [runDirty_storeOps, h1]
    exact runDirty_checks _ h2
  · have : (testEEPROM E near s).2.countP isCommit =
        (storeOps (testEEPROM E near s).2).countP isCommit := by
      unfold storeOps
      rw [List.countP_filter]
      congr 1
      funext e
      cases e <;> simp [isCommit, isWrite, isRead]
    rw [this, h1, countP_commit_checks _ h2]
    rfl

end EEPROM

/-- Witness of C9: a fresh ByteStore, whose mount succeeds. -/
theorem commit_after_each_write_witness :
    (byteStoreEEPROM.begin ByteStore.fresh EEPROM_SIZE).1 = true ∧
    runDirty false (testEEPROM byteStoreEEPROM (fun a b => a == b) ByteStore.fresh).2 =
      some false ∧
    (testEEPROM byteStoreEEPROM (fun a b => a == b) ByteStore.fresh).2.countP isCommit = 6 :=
  have h := commit_after_each_write byteStoreEEPROM (fun a b => a == b) ByteStore.fresh
    (by decide)
  ⟨by decide, h.2.2.2.1, h.2.2.2.2⟩

/-! ## Which tests a run executes -/

theorem checksRun_append (a b : List Event) : checksRun (a ++ b) = checksRun a ++ checksRun b := by
  unfold checksRun
  exact List.filterMap_append _ _ _

theorem checksRun_cons_write {e : Event} (h : isWrite e = true) (l : List Event) :
    checksRun (e :: l) = checksRun l := by
  cases e <;> simp_all [isWrite, checksRun, List.filterMap_cons]

theorem checksRun_cons_read {e : Event} (h : isRead e = true) (l : List Event) :
    checksRun (e :: l) = checksRun l := by
  cases e <;> simp_all [isRead, checksRun, List.filterMap_cons]

theorem checksRun_of_writes {l : List Event} (h : ∀ e ∈ l, isWrite e = true) :
    checksRun l = [] := by
  induction l with
  | nil => rfl
  | cons e es ih =>
    rw [checksRun_cons_write (h e (List.mem_cons_self _ _))]
    exact ih (fun x hx => h x (List.mem_cons_of_mem _ hx))

theorem checksRun_of_reads {l : List Event} (h : ∀ e ∈ l, isRead e = true) :
    checksRun l = [] := by
  induction l with
  | nil => rfl
  | cons e es ih =>
    rw [checksRun_cons_read (h e (List.mem_cons_self _ _))]
    exact ih (fun x hx => h x (List.mem_cons_of_mem _ hx))

theorem checksRun_printArray (l : List Nat) (i : Nat) : checksRun (printArray l i) = [] := by
  induction l generalizing i with
  | nil => rfl
  | cons b bs ih =>
    simp only [printArray]
    have := ih (i + 1)
    simp only [checksRun, List.filterMap_cons] at this ⊢
    exact this

section EEPROM
variable {σ : Type}

theorem checksRun_eepromBattery (E : EEPROMClass σ) (near : Nat → Nat → Bool) (s : σ) :
    checksRun (eepromBattery E near s).2 = eepromBanners := by
  have h1 : ∀ s, checksRun (eepromTest1 E s).2 = ["\nTest 1: Write/Read single byte"] := by
    intro s
    simp [eepromTest1, checksRun, List.filterMap_cons, eepromBanners, spiffsBanners]
  have h2 : ∀ s, checksRun (eepromTest2 E 10 12345 s).2 = ["\nTest 2: Write/Read integer"] := by
    intro s
    simp [eepromTest2, checksRun, List.filterMap_cons, eepromBanners, spiffsBanners]
  have h3 : ∀ s, checksRun (eepromTest3 E near s).2 = ["\nTest 3: Write/Read float"] := by
    intro s
    simp [eepromTest3, checksRun, List.filterMap_cons, eepromBanners, spiffsBanners]
  have h4 : ∀ s, checksRun (eepromTest4 E 30 (bytesOf "ESP32-S3") s).2 =
      ["\nTest 4: Write/Read string"] := by
    intro s
    unfold eepromTest4
    simp only [checksRun_append, checksRun_of_writes (writeLoop_all_write E _ _ _ _),
      checksRun_of_reads (readStringLoop_all_read E _ 51 0 [] _ rfl).1]
    simp [checksRun, List.filterMap_cons, eepromBanners, spiffsBanners]
  have h5 : ∀ s, checksRun (eepromTest5 E s).2 = ["\nTest 5: Write/Read byte array"] := by
    intro s
    unfold eepromTest5
    simp only [checksRun_append, checksRun_of_writes (writeLoop_all_write E _ _ _ _),
      checksRun_of_reads (readLoop_all_read E _ _ _ _), checksRun_printArray]
    simp [checksRun, List.filterMap_cons, eepromBanners, spiffsBanners]
  have h6 : ∀ s, checksRun (eepromTest6 E s).2 = ["\nTest 6: Clear EEPROM section"] := by
    intro s
    unfold eepromTest6
    simp only [checksRun_append, checksRun_of_writes (writeLoop_all_write E _ _ _ _),
      checksRun_of_reads (readLoop_all_read E _ _ _ _)]
    simp [checksRun, List.filterMap_cons, eepromBanners, spiffsBanners]
  unfold eepromBattery
  simp only [checksRun_append, h1, h2, h3, h4, h5, h6]
  rfl

theorem checksRun_testEEPROM (E : EEPROMClass σ) (near : Nat → Nat → Bool) (s : σ) :
    checksRun (testEEPROM E near s).2 =
      if (E.begin s EEPROM_SIZE).1 then eepromBanners else [] := by
  unfold testEEPROM
  by_cases hb : (E.begin s EEPROM_SIZE).1 = true
  · simp only [hb, Bool.true_eq_false, if_false, if_true, checksRun_append,
      checksRun_eepromBattery]
    simp [checksRun, List.filterMap_cons, eepromBanners, spiffsBanners]
  · simp only [Bool.not_eq_true] at hb
    simp only [hb, if_true, Bool.false_eq_true, if_false]
    simp [checksRun, List.filterMap_cons, eepromBanners, spiffsBanners]

end EEPROM

section SPIFFS
variable {τ : Type}

theorem checksRun_printSPIFFSInfo (F : SPIFFSClass τ) (t : τ) :
    checksRun (printSPIFFSInfo F t) = [] := by
  simp [printSPIFFSInfo, checksRun, List.filterMap_cons, eepromBanners, spiffsBanners]

theorem checksRun_filePrintln (F : SPIFFSClass τ) (file : File) (text : List Nat) (t : τ) :
    checksRun (filePrintln F file text t).2 = [] := by
  simp [filePrintln, checksRun, List.filterMap_cons]

theorem checksRun_writeTestFile (F : SPIFFSClass τ) (millis : Nat) (t : τ) :
    checksRun (writeTestFile F millis t).2 = [] := by
  unfold writeTestFile
  simp only
  split
  · simp [checksRun, List.filterMap_cons, eepromBanners, spiffsBanners]
  · simp only [checksRun_append, checksRun_filePrintln]
    simp [checksRun, List.filterMap_cons, eepromBanners, spiffsBanners]

theorem readStringUntil_length_le (term : Nat) (l : List Nat) :
    (readStringUntil term l).2.length ≤ l.length := by
  induction l with
  | nil => simp [readStringUntil]
  | cons c cs ih =>
    unfold readStringUntil
    split
    · simp
    · simp only [List.length_cons]; omega

theorem readStringUntil_length_lt (term : Nat) (l : List Nat) (h : l ≠ []) :
    (readStringUntil term l).2.length < l.length := by
  cases l with
  | nil => exact absurd rfl h
  | cons c cs =>
    unfold readStringUntil
    split
    · simp
    · have := readStringUntil_length_le term cs
      simp only [List.length_cons]; omega

theorem checksRun_readLines (h : Nat) (data : List Nat) : checksRun (readLines h data) = [] := by
  generalize hn : data.length = n
  induction n using Nat.strong_induction_on generalizing data with
  | _ n ih =>
    rw [readLines]
    split
    · rfl
    · rename_i hne
      have hlt := readStringUntil_length_lt 10 data hne
      have := ih _ (hn ▸ hlt) (readStringUntil 10 data).2 rfl
      simp only [checksRun, List.filterMap_cons] at this ⊢
      exact this

theorem checksRun_readTestFile (F : SPIFFSClass τ) (t : τ) :
    checksRun (readTestFile F t).2 = [] := by
  unfold readTestFile
  simp only
  split
  · simp [checksRun, List.filterMap_cons, eepromBanners, spiffsBanners]
  · simp only [checksRun_append, checksRun_readLines]
    simp [checksRun, List.filterMap_cons, eepromBanners, spiffsBanners]

theorem checksRun_listLoop (dir : Nat) (es : List DirEntry) : checksRun (listLoop dir es) = [] := by
  induction es with
  | nil => rfl
  | cons e es ih =>
    simp only [listLoop]
    simp only [checksRun, List.filterMap_cons] at ih ⊢
    exact ih

theorem checksRun_listSPIFFSFiles (F : SPIFFSClass τ) (t : τ) :
    checksRun (listSPIFFSFiles F t).2 = [] := by
  unfold listSPIFFSFiles
  simp only
  split
  · simp [checksRun, List.filterMap_cons, eepromBanners, spiffsBanners]
  · split
    · simp [checksRun, List.filterMap_cons, eepromBanners, spiffsBanners]
    · simp only [checksRun_append, checksRun_listLoop]
      split <;> simp [checksRun, List.filterMap_cons, eepromBanners, spiffsBanners]

theorem checksRun_appendStep (F : SPIFFSClass τ) (t : τ) :
    checksRun (appendStep F t).2 = [] := by
  unfold appendStep
  simp only
  split
  · simp only [checksRun_append, checksRun_filePrintln]
    simp [checksRun, List.filterMap_cons, eepromBanners, spiffsBanners]
  · simp [checksRun, List.filterMap_cons, eepromBanners, spiffsBanners]

theorem checksRun_dumpBytes (h : Nat) (l : List Nat) : checksRun (dumpBytes h l) = [] := by
  induction l with
  | nil => rfl
  | cons b bs ih =>
    simp only [dumpBytes]
    simp only [checksRun, List.filterMap_cons] at ih ⊢
    exact ih

theorem checksRun_deleteSPIFFSFile (F : SPIFFSClass τ) (path : String) (t : τ) :
    checksRun (deleteSPIFFSFile F path t).2 = [] := by
  unfold deleteSPIFFSFile
  simp only
  split <;> simp [checksRun, List.filterMap_cons]

theorem checksRun_cons_banner (s : String) (hs : (eepromBanners ++ spiffsBanners).contains s = true)
    (l : List Event) : checksRun (.println (.str s) :: l) = s :: checksRun l := by
  simp only [checksRun, List.filterMap_cons, hs, if_true]

theorem checksRun_spiffsBattery (F : SPIFFSClass τ) (millis : Nat) (t : τ) :
    checksRun (spiffsBattery F millis t).2 = spiffsBanners := by
  have h1 : ∀ t, checksRun (spiffsTest1 F millis t).2 = ["\nTest 1: Write text file"] := by
    intro t
    simp only [spiffsTest1]
    rw [checksRun_cons_banner _ (by decide), checksRun_writeTestFile]
  have h2 : ∀ t, checksRun (spiffsTest2 F t).2 = ["\nTest 2: Read text file"] := by
    intro t
    simp only [spiffsTest2]
    rw [checksRun_cons_banner _ (by decide), checksRun_readTestFile]
  have h3 : ∀ t, checksRun (spiffsTest3 F t).2 = ["\nTest 3: Append to file"] := by
    intro t
    simp only [spiffsTest3]
    rw [checksRun_cons_banner _ (by decide), checksRun_append, checksRun_appendStep,
      checksRun_readTestFile]
    rfl
  have h4 : ∀ t, checksRun (spiffsTest4 F t).2 = ["\nTest 4: Write binary file"] := by
    intro t
    unfold spiffsTest4
    simp only
    split <;> simp [checksRun, List.filterMap_cons, eepromBanners, spiffsBanners]
  have h5 : ∀ t, checksRun (spiffsTest5 F t).2 = ["\nTest 5: Read binary file"] := by
    intro t
    unfold spiffsTest5
    simp only
    split
    · simp only [checksRun_append, checksRun_dumpBytes]
      simp [checksRun, List.filterMap_cons, eepromBanners, spiffsBanners]
    · simp [checksRun, List.filterMap_cons, eepromBanners, spiffsBanners]
  have h6 : ∀ t, checksRun (spiffsTest6 F t).2 = ["\nTest 6: List all files"] := by
    intro t
    simp only [spiffsTest6]
    rw [checksRun_cons_banner _ (by decide), checksRun_listSPIFFSFiles]
  have h7 : ∀ t, checksRun (spiffsTest7 F t).2 = ["\nTest 7: Check file existence"] := by
    intro t
    simp [spiffsTest7, checksRun, List.filterMap_cons, eepromBanners, spiffsBanners]
  have h8 : ∀ t, checksRun (spiffsTest8 F t).2 = ["\nTest 8: Rename file"] := by
    intro t
    unfold spiffsTest8
    simp only
    split
    · simp only [checksRun_append, checksRun_listSPIFFSFiles]
      simp [checksRun, List.filterMap_cons, eepromBanners, spiffsBanners]
    · simp [checksRun, List.filterMap_cons, eepromBanners, spiffsBanners]
  have h9 : ∀ t, checksRun (spiffsTest9 F t).2 = ["\nTest 9: Delete files"] := by
    intro t
    simp only [spiffsTest9]
    rw [checksRun_cons_banner _ (by decide), checksRun_append, checksRun_deleteSPIFFSFile,
      checksRun_deleteSPIFFSFile]
    rfl
  unfold spiffsBattery
  simp only [checksRun_append, h1, h2, h3, h4, h5, h6, h7, h8, h9]
  rfl

theorem checksRun_testSPIFFS (F : SPIFFSClass τ) (millis : Nat) (t : τ) :
    checksRun (testSPIFFS F millis t).2 =
      if (F.begin t true).1 then spiffsBanners else [] := by
  unfold testSPIFFS
  by_cases hb : (F.begin t true).1 = true
  · simp only [hb, Bool.true_eq_false, if_false, if_true, checksRun_append,
      checksRun_spiffsBattery, checksRun_printSPIFFSInfo, checksRun_listSPIFFSFiles]
    simp [checksRun, List.filterMap_cons, eepromBanners, spiffsBanners]
  · simp only [Bool.not_eq_true] at hb
    simp only [hb, if_true, Bool.false_eq_true, if_false]
    simp [checksRun, List.filterMap_cons, eepromBanners, spiffsBanners]

end SPIFFS

theorem checksRun_setup {σ τ : Type} (E : EEPROMClass σ) (F : SPIFFSClass τ)
    (near : Nat → Nat → Bool) (millis : Nat) (s : σ) (t : τ) :
    checksRun (setup E F near millis s t).2.2 =
      (if (E.begin s EEPROM_SIZE).1 then eepromBanners else []) ++
      (if (F.begin t true).1 then spiffsBanners else []) := by
  unfold setup
  simp only [checksRun_append, checksRun_testEEPROM, checksRun_testSPIFFS]
  have h1 : checksRun setupPrelude = [] := by decide
  have h2 : checksRun setupFooter = [] := by decide
  have h3 : checksRun [Event.delay 1000] = [] := by decide
  rw [h1, h2, h3]
  simp

/-! ## Mount failure and the order of the tests -/

section EEPROM
variable {σ : Type}

theorem eepromChecks_run (E : EEPROMClass σ) (near : Nat → Nat → Bool) (s : σ) :
    List.Forall₂ Runs eepromBanners (eepromChecks E near s) := by
  refine .cons ?_ (.cons ?_ (.cons ?_ (.cons ?_ (.cons ?_ (.cons ?_ .nil)))))
  · exact ⟨_, _, rfl, rfl⟩
  · exact ⟨_, _, rfl, rfl⟩
  · exact ⟨_, _, rfl, rfl⟩
  · exact ⟨.eeWrite (30 + 0) (69 % 256), _, rfl, rfl⟩
  · exact ⟨.eeWrite (100 + 0) (10 % 256), _, rfl, rfl⟩
  · exact ⟨.eeWrite (200 + 0) (255 % 256), _, rfl, rfl⟩

end EEPROM

section SPIFFS
variable {τ : Type}

theorem runs_spiffsTest1 (F : SPIFFSClass τ) (millis : Nat) (t : τ) :
    Runs "\nTest 1: Write text file" (spiffsTest1 F millis t).2 := by
  unfold spiffsTest1 writeTestFile
  simp only
  split
  · exact ⟨_, _, rfl, rfl⟩
  · exact ⟨_, _, rfl, rfl⟩

theorem runs_spiffsTest2 (F : SPIFFSClass τ) (t : τ) :
    Runs "\nTest 2: Read text file" (spiffsTest2 F t).2 := by
  unfold spiffsTest2 readTestFile
  simp only
  split
  · exact ⟨_, _, rfl, rfl⟩
  · exact ⟨_, _, rfl, rfl⟩

theorem runs_spiffsTest3 (F : SPIFFSClass τ) (t : τ) :
    Runs "\nTest 3: Append to file" (spiffsTest3 F t).2 := by
  unfold spiffsTest3 appendStep
  simp only
  split
  · exact ⟨_, _, rfl, rfl⟩
  · exact ⟨_, _, rfl, rfl⟩

theorem runs_spiffsTest4 (F : SPIFFSClass τ) (t : τ) :
    Runs "\nTest 4: Write binary file" (spiffsTest4 F t).2 := by
  unfold spiffsTest4
  simp only
  split
  · exact ⟨_, _, rfl, rfl⟩
  · exact ⟨_, _, rfl, rfl⟩

theorem runs_spiffsTest5 (F : SPIFFSClass τ) (t : τ) :
    Runs "\nTest 5: Read binary file" (spiffsTest5 F t).2 := by
  unfold spiffsTest5
  simp only
  split
  · exact ⟨_, _, rfl, rfl⟩
  · exact ⟨_, _, rfl, rfl⟩

theorem runs_spiffsTest6 (F : SPIFFSClass τ) (t : τ) :
    Runs "\nTest 6: List all files" (spiffsTest6 F t).2 := by
  unfold spiffsTest6 listSPIFFSFiles
  simp only
  split
  · exact ⟨_, _, rfl, rfl⟩
  · split
    · exact ⟨_, _, rfl, rfl⟩
    · exact ⟨_, _, rfl, rfl⟩

theorem runs_spiffsTest7 (F : SPIFFSClass τ) (t : τ) :
    Runs "\nTest 7: Check file existence" (spiffsTest7 F t).2 :=
  ⟨_, _, rfl, rfl⟩

theorem runs_spiffsTest8 (F : SPIFFSClass τ) (t : τ) :
    Runs "\nTest 8: Rename file" (spiffsTest8 F t).2 := by
  unfold spiffsTest8
  simp only
  split
  · exact ⟨_, _, rfl, rfl⟩
  · exact ⟨_, _, rfl, rfl⟩

theorem runs_spiffsTest9 (F : SPIFFSClass τ) (t : τ) :
    Runs "\nTest 9: Delete files" (spiffsTest9 F t).2 :=
  ⟨_, _, rfl, rfl⟩

theorem spiffsChecks_run (F : SPIFFSClass τ) (millis : Nat) (t : τ) :
    List.Forall₂ Runs spiffsBanners (spiffsChecks F millis t) :=
  .cons (runs_spiffsTest1 F millis _) (.cons (runs_spiffsTest2 F _) (.cons (runs_spiffsTest3 F _)
    (.cons (runs_spiffsTest4 F _) (.cons (runs_spiffsTest5 F _) (.cons (runs_spiffsTest6 F _)
    (.cons (runs_spiffsTest7 F _) (.cons (runs_spiffsTest8 F _) (.cons (runs_spiffsTest9 F _)
    .nil))))))))

theorem spiffsBattery_trace (F : SPIFFSClass τ) (millis : Nat) (t : τ) :
    (spiffsBattery F millis t).2 = (spiffsChecks F millis t).flatten := by
  simp [spiffsBattery, spiffsChecks, List.flatten]

end SPIFFS

/-- C4: a failed mount disables its battery and nothing else.  If
`EEPROM.begin(512)` fails, `testEEPROM` issues that call and two console lines
only (no write, read or commit); if `SPIFFS.begin(true)` fails, `testSPIFFS`
issues that call and two console lines only (no open, exists, rename, remove or
capacity query); and `setup` always runs `testEEPROM`, then `testSPIFFS`, so
`SPIFFS.begin` is called whatever `EEPROM.begin` returned. -/
theorem failed_mount_disables_battery {σ τ : Type} (E : EEPROMClass σ) (F : SPIFFSClass τ)
    (near : Nat → Nat → Bool) (millis : Nat) (s : σ) (t : τ) :
    ((E.begin s EEPROM_SIZE).1 = false →
      (testEEPROM E near s).2 =
        [.println (.str "\n--- EEPROM Test Start ---"),
         .eeBegin EEPROM_SIZE false,
         .println (.str "Failed to initialize EEPROM!")] ∧
      ∀ e ∈ (testEEPROM E near s).2, isStoreAccess e = false) ∧
    ((F.begin t true).1 = false →
      (testSPIFFS F millis t).2 =
        [.println (.str "\n--- SPIFFS Test Start ---"),
         .fsBegin true false,
         .println (.str "✗ SPIFFS mount failed!")] ∧
      ∀ e ∈ (testSPIFFS F millis t).2, isFileAccess e = false) ∧
    (setup E F near millis s t).2.2 =
      setupPrelude ++ (testEEPROM E near s).2 ++ [.delay 1000] ++
        (testSPIFFS F millis t).2 ++ setupFooter ∧
    .fsBegin true (F.begin t true).1 ∈ (setup E F near millis s t).2.2 := by
  refine ⟨?_, ?_, rfl, ?_⟩
  · intro hb
    have : (testEEPROM E near s).2 =
        [.println (.str "\n--- EEPROM Test Start ---"),
         .eeBegin EEPROM_SIZE false,
         .println (.str "Failed to initialize EEPROM!")] := by
      unfold testEEPROM
      simp only [hb, if_true]
    rw [this]
    exact ⟨rfl, by decide⟩
  · intro hb
    have : (testSPIFFS F millis t).2 =
        [.println (.str "\n--- SPIFFS Test Start ---"),
         .fsBegin true false,
         .println (.str "✗ SPIFFS mount failed!")] := by
      unfold testSPIFFS
      simp only [hb, if_true]
    rw [this]
    exact ⟨rfl, by decide⟩
  · have : .fsBegin true (F.begin t true).1 ∈ (testSPIFFS F millis t).2 := by
      unfold testSPIFFS
      by_cases hb : (F.begin t true).1 = true
      · simp [hb]
      · simp only [Bool.not_eq_true] at hb
        simp [hb]
    unfold setup
    simp only [List.mem_append]
    exact Or.inl (Or.inr this)

/-- Witness of C4: a ByteStore whose medium cannot be initialised, next to a
filesystem that mounts. -/
theorem failed_mount_disables_battery_witness :
    (byteStoreEEPROM.begin ByteStore.broken EEPROM_SIZE).1 = false ∧
    (testEEPROM byteStoreEEPROM (fun a b => a == b) ByteStore.broken).2 =
      [.println (.str "\n--- EEPROM Test Start ---"),
       .eeBegin EEPROM_SIZE false,
       .println (.str "Failed to initialize EEPROM!")] ∧
    (fileStoreSPIFFS.begin FileStore.blank true).1 = true ∧
    .fsBegin true true ∈
      (setup byteStoreEEPROM fileStoreSPIFFS (fun a b => a == b) 0
        ByteStore.broken FileStore.blank).2.2 :=
  have h := failed_mount_disables_battery byteStoreEEPROM fileStoreSPIFFS (fun a b => a == b) 0
    ByteStore.broken FileStore.blank
  ⟨by decide, (h.1 (by decide)).1, by decide, h.2.2.2⟩

/-- C5, amended: for every combination of results of the storage calls,
`setup` executes, in source order, the six EEPROM tests when
`EEPROM.begin` succeeded (none of them otherwise) and then the nine SPIFFS
tests when `SPIFFS.begin` succeeded (none of them otherwise); each executed
test prints its banner and issues its first storage call, whatever the earlier
tests returned. -/
theorem every_check_runs_after_mount {σ τ : Type} (E : EEPROMClass σ) (F : SPIFFSClass τ)
    (near : Nat → Nat → Bool) (millis : Nat) (s : σ) (t : τ) :
    checksRun (setup E F near millis s t).2.2 =
      (if (E.begin s EEPROM_SIZE).1 then eepromBanners else []) ++
      (if (F.begin t true).1 then spiffsBanners else []) ∧
    ((E.begin s EEPROM_SIZE).1 = true →
      (∃ pre post, (testEEPROM E near s).2 =
        pre ++ (eepromChecks E near (E.begin s EEPROM_SIZE).2).flatten ++ post) ∧
      List.Forall₂ Runs eepromBanners (eepromChecks E near (E.begin s EEPROM_SIZE).2)) ∧
    ((F.begin t true).1 = true →
      (∃ pre post, (testSPIFFS F millis t).2 =
        pre ++ (spiffsChecks F millis (F.begin t true).2).flatten ++ post) ∧
      List.Forall₂ Runs spiffsBanners (spiffsChecks F millis (F.begin t true).2)) := by
  refine ⟨checksRun_setup E F near millis s t, ?_, ?_⟩
  · intro hb
    refine ⟨⟨[.println (.str "\n--- EEPROM Test Start ---"), .eeBegin EEPROM_SIZE true,
        .println (.str "✓ EEPROM initialized successfully"),
        .printf "✓ EEPROM size: %d bytes\n" [.int EEPROM_SIZE]],
      [.println (.str "\n--- EEPROM Test Complete ---")], ?_⟩, eepromChecks_run E near _⟩
    unfold testEEPROM
    simp only [hb, Bool.true_eq_false, if_false]
    rw [eepromBattery_trace]
  · intro hb
    refine ⟨⟨[.println (.str "\n--- SPIFFS Test Start ---"), .fsBegin true true,
        .println (.str "✓ SPIFFS mounted successfully")] ++
          printSPIFFSInfo F (F.begin t true).2,
      [.println (.str "\nFinal file list:")] ++
        (listSPIFFSFiles F (spiffsBattery F millis (F.begin t true).2).1).2 ++
        printSPIFFSInfo F (listSPIFFSFiles F (spiffsBattery F millis (F.begin t true).2).1).1 ++
        [.println (.str "\n--- SPIFFS Test Complete ---")], ?_⟩, spiffsChecks_run F millis _⟩
    unfold testSPIFFS
    simp only [hb, Bool.true_eq_false, if_false]
    rw [spiffsBattery_trace]
    simp only [List.append_assoc]

/-- Witness of C5, amended: a fresh ByteStore and an empty filesystem, both of
which mount; all fifteen tests run. -/
theorem every_check_runs_after_mount_witness :
    (byteStoreEEPROM.begin ByteStore.fresh EEPROM_SIZE).1 = true ∧
    (fileStoreSPIFFS.begin FileStore.blank true).1 = true ∧
    checksRun (setup byteStoreEEPROM fileStoreSPIFFS (fun a b => a == b) 0
      ByteStore.fresh FileStore.blank).2.2 = eepromBanners ++ spiffsBanners :=
  ⟨by decide, by decide,
   (every_check_runs_after_mount byteStoreEEPROM fileStoreSPIFFS (fun a b => a == b) 0
      ByteStore.fresh FileStore.blank).1.trans (by decide)⟩

/-- Counterexample to C5 as stated: when `EEPROM.begin` fails, `setup` runs
none of the six EEPROM tests (and still all nine SPIFFS tests). -/
theorem mount_failure_skips_checks :
    (byteStoreEEPROM.begin ByteStore.broken EEPROM_SIZE).1 = false ∧
    checksRun (setup byteStoreEEPROM fileStoreSPIFFS (fun a b => a == b) 0
      ByteStore.broken FileStore.blank).2.2 = spiffsBanners ∧
    checksRun (setup byteStoreEEPROM fileStoreSPIFFS (fun a b => a == b) 0
      ByteStore.broken FileStore.blank).2.2 ≠ eepromBanners ++ spiffsBanners := by
  have h := checksRun_setup byteStoreEEPROM fileStoreSPIFFS (fun a b => a == b) 0
    ByteStore.broken FileStore.blank
  have e : checksRun (setup byteStoreEEPROM fileStoreSPIFFS (fun a b => a == b) 0
      ByteStore.broken FileStore.blank).2.2 = spiffsBanners := h.trans (by decide)
  refine ⟨by decide, e, ?_⟩
  rw [e]
  decide

/-! ## The GPS ingest loop -/

section GPS
variable {γ : Type}

theorem drainLoop_spec (G : TinyGPSPlus γ) (rx : List Nat) (g : γ) :
    (drainLoop G rx g).1 = feedAll G rx g ∧
    (drainLoop G rx g).2.1 = [] ∧
    fedBytes (drainLoop G rx g).2.2 = rx.map (fun b => b % 256) ∧
    updateChecks (drainLoop G rx g).2.2 = [] ∧
    fieldsRead (drainLoop G rx g).2.2 = [] ∧
    (drainLoop G rx g).2.2.filter isConsole = [] := by
  induction rx generalizing g with
  | nil => simp [drainLoop, feedAll, fedBytes, updateChecks, fieldsRead, isConsole]
  | cons b rx ih =>
    obtain ⟨h1, h2, h3, h4, h5, h6⟩ := ih (G.encode g (b % 256)).2
    refine ⟨?_, ?_, ?_, ?_, ?_, ?_⟩
    · simp only [drainLoop, h1, feedAll, List.foldl_cons]
    · simp only [drainLoop, h2]
    · simp only [fedBytes, List.filterMap_cons, drainLoop, List.map_cons] at h3 ⊢
      rw [h3]
    · simp only [updateChecks, List.filterMap_cons, drainLoop] at h4 ⊢
      exact h4
    · simp only [fieldsRead, List.filterMap_cons, drainLoop] at h5 ⊢
      exact h5
    · simp only [drainLoop, List.filter_cons, isConsole] at h6 ⊢
      simpa using h6

theorem reportFix_spec (G : TinyGPSPlus γ) (g : γ) :
    fedBytes (reportFix G g).2 = [] ∧
    updateChecks (reportFix G g).2 = [] ∧
    fieldsRead (reportFix G g).2 = allFields := by
  simp [reportFix, fedBytes, updateChecks, fieldsRead, allFields, List.filterMap_cons,
    List.filterMap_append]

theorem drainLoop_logs (G : TinyGPSPlus γ) (rx : List Nat) (g : γ) (rest : List Event) :
    fieldLogs ((drainLoop G rx g).2.2 ++ rest) = fieldLogs rest ∧
    valuesPrinted (drainLoop G rx g).2.2 = [] ∧
    labelsPrinted (drainLoop G rx g).2.2 = [] := by
  induction rx generalizing g with
  | nil => simp [drainLoop, fieldLogs, valuesPrinted, labelsPrinted]
  | cons b rx ih =>
    obtain ⟨h1, h2, h3⟩ := ih (G.encode g (b % 256)).2
    refine ⟨?_, ?_, ?_⟩
    · simp only [drainLoop, List.cons_append, fieldLogs]
      exact h1
    · simp only [valuesPrinted, drainLoop, List.filterMap_cons] at h2 ⊢
      exact h2
    · simp only [labelsPrinted, drainLoop, List.filterMap_cons] at h3 ⊢
      exact h3

theorem reportFix_logs (G : TinyGPSPlus γ) (g : γ) :
    fieldLogs (reportFix G g).2 =
      (readFields G allFields g).map (fun p => (p.1, fieldArg p.1 p.2)) ∧
    valuesPrinted (reportFix G g).2 =
      (readFields G allFields g).map (fun p => fieldArg p.1 p.2) ∧
    labelsPrinted (reportFix G g).2 = fixLabels := by
  refine ⟨?_, ?_, ?_⟩
  · simp [reportFix, fieldLogs, readFields, allFields, fieldArg]
  · simp [reportFix, valuesPrinted, readFields, allFields, fieldArg, List.filterMap_cons,
      List.filterMap_append]
  · simp [reportFix, labelsPrinted, fixLabels, List.filterMap_cons, List.filterMap_append]

/-- C10: one invocation of `loop()` on `n` buffered bytes returns (it is a
total function), leaves the buffer empty, feeds exactly those bytes to the
decoder, each once and in arrival order, then checks the fresh-fix indicator
exactly once, on the decoder state reached after the last byte.  If the
indicator is true it reads the fourteen fix fields, each once, and prints the
value each read returned, once and right after the read, between the labels
of the report; otherwise it prints nothing. -/
theorem loop_drains_then_reports (G : TinyGPSPlus γ) (rx : List Nat) (g : γ) :
    (loop G rx g).2.1 = [] ∧
    (loop G rx g).2.2 =
      (drainLoop G rx g).2.2 ++ [.gpsIsUpdated (G.isUpdated (feedAll G rx g))] ++
        (if G.isUpdated (feedAll G rx g) then (reportFix G (feedAll G rx g)).2 else []) ∧
    fedBytes (drainLoop G rx g).2.2 = rx.map (fun b => b % 256) ∧
    updateChecks (drainLoop G rx g).2.2 = [] ∧
    fedBytes (loop G rx g).2.2 = rx.map (fun b => b % 256) ∧
    (fedBytes (loop G rx g).2.2).length = rx.length ∧
    updateChecks (loop G rx g).2.2 = [G.isUpdated (feedAll G rx g)] ∧
    fieldsRead (loop G rx g).2.2 = (if G.isUpdated (feedAll G rx g) then allFields else []) ∧
    allFields.Nodup ∧
    ((loop G rx g).2.2.filter isConsole ≠ [] ↔ G.isUpdated (feedAll G rx g) = true) ∧
    fieldLogs (loop G rx g).2.2 =
      (if G.isUpdated (feedAll G rx g) then
        (readFields G allFields (feedAll G rx g)).map (fun p => (p.1, fieldArg p.1 p.2))
       else []) ∧
    valuesPrinted (loop G rx g).2.2 =
      (if G.isUpdated (feedAll G rx g) then
        (readFields G allFields (feedAll G rx g)).map (fun p => fieldArg p.1 p.2)
       else []) ∧
    labelsPrinted (loop G rx g).2.2 =
      (if G.isUpdated (feedAll G rx g) then fixLabels else []) ∧
    (readFields G allFields (feedAll G rx g)).map (fun p => p.1) = allFields := by
  obtain ⟨h1, h2, h3, h4, h5, h6⟩ := drainLoop_spec G rx g
  obtain ⟨r1, r2, r3⟩ := reportFix_spec G (feedAll G rx g)
  obtain ⟨l1, l2, l3⟩ := reportFix_logs G (feedAll G rx g)
  have htr : (loop G rx g).2.2 =
      (drainLoop G rx g).2.2 ++ [.gpsIsUpdated (G.isUpdated (feedAll G rx g))] ++
        (if G.isUpdated (feedAll G rx g) then (reportFix G (feedAll G rx g)).2 else []) := by
    unfold loop
    simp only [h1]
    split <;> simp_all
  have hbuf : (loop G rx g).2.1 = [] := by
    unfold loop
    simp only
    split <;> exact h2
  have hfed : fedBytes (loop G rx g).2.2 = rx.map (fun b => b % 256) := by
    rw [htr]
    unfold fedBytes at *
    rw [List.filterMap_append, List.filterMap_append, h3]
    split <;> simp_all
  refine ⟨hbuf, htr, h3, h4, hfed, by rw [hfed]; simp, ?_, ?_, by decide, ?_, ?_, ?_, ?_, ?_⟩
  · rw [htr]
    unfold updateChecks at *
    rw [List.filterMap_append, List.filterMap_append, h4]
    split <;> simp_all
  · rw [htr]
    unfold fieldsRead at *
    rw [List.filterMap_append, List.filterMap_append, h5]
    split <;> simp_all
  · rw [htr, List.filter_append, List.filter_append, h6]
    by_cases hu : G.isUpdated (feedAll G rx g) = true
    · simp [hu, reportFix, isConsole, List.filter_cons]
    · simp [hu, isConsole, List.filter_cons]
  · rw [htr, List.append_assoc, (drainLoop_logs G rx g _).1]
    simp only [List.singleton_append, fieldLogs]
    split
    · exact l1
    · rfl
  · have va : ∀ a b, valuesPrinted (a ++ b) = valuesPrinted a ++ valuesPrinted b := by
      intro a b; unfold valuesPrinted; exact List.filterMap_append _ _ _
    rw [htr, va, va, (drainLoop_logs G rx g []).2.1]
    by_cases hu : G.isUpdated (feedAll G rx g) = true
    · simp only [hu, if_true, l2]
      simp [valuesPrinted]
    · simp [hu, valuesPrinted]
  · have la : ∀ a b, labelsPrinted (a ++ b) = labelsPrinted a ++ labelsPrinted b := by
      intro a b; unfold labelsPrinted; exact List.filterMap_append _ _ _
    rw [htr, la, la, (drainLoop_logs G rx g []).2.2]
    by_cases hu : G.isUpdated (feedAll G rx g) = true
    · simp only [hu, if_true, l3]
      simp [labelsPrinted]
    · simp [hu, labelsPrinted]
  · simp [readFields, allFields]

end GPS

/-! ## Test 5 of the SPIFFS battery and the file handles -/

section SPIFFS
variable {τ : Type}

theorem bytesRead_dumpBytes (h : Nat) (data : List Nat) :
    bytesRead (dumpBytes h data) = data.map (fun b => b % 256) := by
  induction data with
  | nil => rfl
  | cons b bs ih =>
    simp only [dumpBytes, bytesRead, List.filterMap_cons, List.map_cons] at ih ⊢
    rw [ih]

theorem binaryReadOk_not_mem_dumpBytes (h : Nat) (data : List Nat) :
    binaryReadOk ∉ dumpBytes h data := by
  induction data with
  | nil => simp [dumpBytes]
  | cons b bs ih =>
    simp only [dumpBytes, List.mem_cons, not_or]
    exact ⟨by simp [binaryReadOk], by simp [binaryReadOk], ih⟩

/-- C7, amended: test 5 reports that the binary file was read successfully
exactly when `/data.bin` could be opened for reading; it then logs the size
the handle reports and reads and logs every byte of the file in order, and
compares neither with the ten bytes test 4 wrote. -/
theorem binary_read_reports_open (F : SPIFFSClass τ) (t : τ) :
    (binaryReadOk ∈ (spiffsTest5 F t).2 ↔ (F.openFile t TEST_FILE_2 .read).1.isSome = true) ∧
    (∀ file, (F.openFile t TEST_FILE_2 .read).1 = some file →
      (spiffsTest5 F t).2 =
        [.println (.str "\nTest 5: Read binary file"),
         .fsOpen TEST_FILE_2 .read (some file.handle),
         .printf "  File size: %d bytes\n" [fmtD file.size],
         .print (.str "  Data: [")] ++ dumpBytes file.handle file.data ++
        [.println (.str "]"), .fsClose file.handle, binaryReadOk] ∧
      bytesRead (spiffsTest5 F t).2 = file.data.map (fun b => b % 256)) := by
  constructor
  · unfold spiffsTest5
    simp only
    split
    · rename_i file hf
      simp [hf, binaryReadOk]
    · rename_i hf
      simp [hf, binaryReadOk]
  · intro file hf
    have : (spiffsTest5 F t).2 =
        [.println (.str "\nTest 5: Read binary file"),
         .fsOpen TEST_FILE_2 .read (some file.handle),
         .printf "  File size: %d bytes\n" [fmtD file.size],
         .print (.str "  Data: [")] ++ dumpBytes file.handle file.data ++
        [.println (.str "]"), .fsClose file.handle, binaryReadOk] := by
      unfold spiffsTest5
      simp only [hf, binaryReadOk]
    refine ⟨this, ?_⟩
    rw [this]
    unfold bytesRead
    rw [List.filterMap_append, List.filterMap_append]
    have := bytesRead_dumpBytes file.handle file.data
    unfold bytesRead at this
    rw [this]
    simp [binaryReadOk]

end SPIFFS

/-- Counterexample to C7 as stated: on a flash with room for three more bytes
test 4 stores `0,1,2` in `/data.bin`; test 5 reads a file of size 3 with those
three bytes and still reports that the binary file was read successfully. -/
theorem short_file_still_reported_ok :
    ((spiffsTest4 nearlyFullSPIFFS FileStore.blank).1).content TEST_FILE_2 = some [0, 1, 2] ∧
    bytesRead (spiffsTest5 nearlyFullSPIFFS (spiffsTest4 nearlyFullSPIFFS FileStore.blank).1).2 =
      [0, 1, 2] ∧
    binaryReadOk ∈
      (spiffsTest5 nearlyFullSPIFFS (spiffsTest4 nearlyFullSPIFFS FileStore.blank).1).2 := by
  decide

/-- Witness of C7, amended: on a filesystem whose `/data.bin` holds three
bytes, test 5 opens the file, reads the three bytes and reports success. -/
theorem binary_read_reports_open_witness :
    (fileStoreSPIFFS.openFile FileStore.stale TEST_FILE_2 .read).1.isSome = true ∧
    binaryReadOk ∈ (spiffsTest5 fileStoreSPIFFS FileStore.stale).2 :=
  ⟨by decide,
   (binary_read_reports_open fileStoreSPIFFS FileStore.stale).1.mpr (by decide)⟩

section SPIFFS
variable {τ : Type}

theorem closed_listLoop (dir : Nat) (es : List DirEntry) : closed (listLoop dir es) = [] := by
  induction es with
  | nil => rfl
  | cons e es ih =>
    simp only [listLoop, closed, List.filterMap_cons] at ih ⊢
    exact ih

theorem opened_listLoop (dir : Nat) (es : List DirEntry) :
    opened (listLoop dir es) = es.map (fun e => e.handle) := by
  induction es with
  | nil => rfl
  | cons e es ih =>
    simp only [listLoop, opened, List.filterMap_cons, List.map_cons] at ih ⊢
    rw [ih]

/-- `listSPIFFSFiles` never calls `close()`, on any of its exit paths, while
it opens the root directory and every entry the directory yields. -/
theorem listSPIFFSFiles_never_closes (F : SPIFFSClass τ) (t : τ) :
    closed (listSPIFFSFiles F t).2 = [] ∧
    (∀ root, (F.openFile t "/" .read).1 = some root →
      root.handle ∈ opened (listSPIFFSFiles F t).2 ∧
      (root.isDirectory = true →
        opened (listSPIFFSFiles F t).2 =
          root.handle :: root.entries.map (fun e => e.handle))) := by
  constructor
  · unfold listSPIFFSFiles
    simp only
    split
    · simp [closed, List.filterMap_cons]
    · split
      · simp [closed, List.filterMap_cons]
      · have := closed_listLoop
        unfold closed at this ⊢
        rw [List.filterMap_append, List.filterMap_append, this]
        split <;> simp [List.filterMap_cons]
  · intro root hr
    unfold listSPIFFSFiles
    simp only [hr]
    have hl := opened_listLoop root.handle root.entries
    by_cases hd : root.isDirectory = true
    · simp only [hd, Bool.true_eq_false, if_false, true_implies]
      unfold opened at hl ⊢
      rw [List.filterMap_append, List.filterMap_append, hl]
      split <;> simp [List.filterMap_cons]
    · simp only [Bool.not_eq_true] at hd
      simp [hd, opened, List.filterMap_cons]

theorem readLines_no_handles (h : Nat) (data : List Nat) :
    opened (readLines h data) = [] ∧ closed (readLines h data) = [] := by
  generalize hn : data.length = n
  induction n using Nat.strong_induction_on generalizing data with
  | _ n ih =>
    rw [readLines]
    split
    · exact ⟨rfl, rfl⟩
    · rename_i hne
      have hlt := readStringUntil_length_lt 10 data hne
      have := ih _ (hn ▸ hlt) (readStringUntil 10 data).2 rfl
      simp only [opened, closed, List.filterMap_cons] at this ⊢
      exact this

theorem dumpBytes_no_handles (h : Nat) (data : List Nat) :
    opened (dumpBytes h data) = [] ∧ closed (dumpBytes h data) = [] := by
  induction data with
  | nil => exact ⟨rfl, rfl⟩
  | cons b bs ih =>
    simp only [dumpBytes, opened, closed, List.filterMap_cons] at ih ⊢
    exact ih

/-- The operations other than `listSPIFFSFiles` close every handle they open:
`writeTestFile`, `readTestFile`, the append step of test 3, test 4 and test 5. -/
theorem file_operations_close_their_handles (F : SPIFFSClass τ) (millis : Nat) (t : τ) :
    opened (writeTestFile F millis t).2 = closed (writeTestFile F millis t).2 ∧
    opened (readTestFile F t).2 = closed (readTestFile F t).2 ∧
    opened (appendStep F t).2 = closed (appendStep F t).2 ∧
    opened (spiffsTest4 F t).2 = closed (spiffsTest4 F t).2 ∧
    opened (spiffsTest5 F t).2 = closed (spiffsTest5 F t).2 := by
  refine ⟨?_, ?_, ?_, ?_, ?_⟩
  · unfold writeTestFile
    simp only
    split <;> simp [opened, closed, filePrintln, List.filterMap_cons, List.filterMap_append]
  · unfold readTestFile
    simp only
    split
    · simp [opened, closed, List.filterMap_cons]
    · have := readLines_no_handles
      unfold opened closed at this ⊢
      simp [List.filterMap_cons, List.filterMap_append, this]
  · unfold appendStep
    simp only
    split <;> simp [opened, closed, filePrintln, List.filterMap_cons, List.filterMap_append]
  · unfold spiffsTest4
    simp only
    split <;> simp [opened, closed, List.filterMap_cons]
  · unfold spiffsTest5
    simp only
    split
    · have := dumpBytes_no_handles
      unfold opened closed at this ⊢
      simp [List.filterMap_cons, List.filterMap_append, this]
    · simp [opened, closed, List.filterMap_cons]

end SPIFFS

/-- C8, the code at the failing input: on a filesystem holding two files
`listSPIFFSFiles` obtains three handles (the root directory and one per entry)
and closes none of them before it returns. -/
theorem listing_leaves_handles_open :
    opened (listSPIFFSFiles fileStoreSPIFFS FileStore.twoFiles).2 = [1, 2, 3] ∧
    closed (listSPIFFSFiles fileStoreSPIFFS FileStore.twoFiles).2 = [] := by
  decide

/-! ## The append scenario on the FileStore -/

theorem readStringUntil_line (term : Nat) (l rest : List Nat) (h : term ∉ l) :
    readStringUntil term (l ++ term :: rest) = (l, rest) := by
  induction l with
  | nil => simp [readStringUntil]
  | cons c cs ih =>
    have hc : c ≠ term := fun e => h (e ▸ List.mem_cons_self _ _)
    have := ih (fun hm => h (List.mem_cons_of_mem _ hm))
    rw [List.cons_append, readStringUntil, if_neg hc, this]

theorem readLines_textOf (h : Nat) (ls : List (List Nat)) (hl : ∀ l ∈ ls, 10 ∉ l) :
    readLines h (textOf ls) =
      ls.flatMap (fun l => [.fsReadUntil h l, .printf "  %s\n" [.bytes l]]) := by
  induction ls with
  | nil =>
    rw [readLines]
    simp [textOf]
  | cons l ls ih =>
    rw [readLines]
    have hne : textOf (l :: ls) ≠ [] := by simp [textOf]
    rw [dif_neg hne]
    simp only [textOf, readStringUntil_line 10 l (textOf ls) (hl l (List.mem_cons_self _ _))]
    rw [ih (fun x hx => hl x (List.mem_cons_of_mem _ hx))]
    simp [List.flatMap_cons]

theorem echoed_flatMap (h : Nat) (ls : List (List Nat)) :
    echoed (ls.flatMap (fun l => [.fsReadUntil h l, .printf "  %s\n" [.bytes l]])) = ls := by
  induction ls with
  | nil => rfl
  | cons l ls ih =>
    simp only [List.flatMap_cons, echoed, List.filterMap_append, List.filterMap_cons] at ih ⊢
    simp [ih]

theorem toDigitsCore_no_lf (fuel n : Nat) (ds : List Char) (h : ∀ c ∈ ds, c.toNat ≠ 10) :
    ∀ c ∈ Nat.toDigitsCore 10 fuel n ds, c.toNat ≠ 10 := by
  induction fuel generalizing n ds with
  | zero => simpa [Nat.toDigitsCore] using h
  | succ fuel ih =>
    have hd : (Nat.digitChar (n % 10)).toNat ≠ 10 := by
      have hlt : n % 10 < 10 := Nat.mod_lt _ (by decide)
      have : ∀ k, k < 10 → (Nat.digitChar k).toNat ≠ 10 := by decide
      exact this _ hlt
    have h2 : ∀ c ∈ Nat.digitChar (n % 10) :: ds, c.toNat ≠ 10 := by
      intro c hc
      rcases List.mem_cons.mp hc with e | e
      · rw [e]; exact hd
      · exact h c e
    simp only [Nat.toDigitsCore]
    split
    · exact h2
    · exact ih _ _ h2

theorem formatUnsigned_no_lf (n : Nat) : 10 ∉ formatUnsigned n := by
  unfold formatUnsigned Nat.toDigits
  intro hm
  obtain ⟨c, hc, e⟩ := List.mem_map.mp hm
  exact toDigitsCore_no_lf _ _ [] (by simp) c hc e

theorem writtenLines_no_lf (millis : Nat) : ∀ l ∈ writtenLines millis, 10 ∉ l := by
  intro l hl
  simp only [writtenLines, List.mem_cons, List.mem_singleton, List.not_mem_nil, or_false] at hl
  rcases hl with h | h | h | h | h
  · subst h; decide
  · subst h; decide
  · subst h; decide
  · subst h; decide
  · subst h
    intro hm
    rcases List.mem_append.mp hm with h1 | h1
    · revert h1; decide
    · exact formatUnsigned_no_lf _ h1

theorem appendedLines_no_lf : ∀ l ∈ appendedLines, 10 ∉ l := by decide

theorem textOf_append (a b : List (List Nat)) : textOf (a ++ b) = textOf a ++ textOf b := by
  induction a with
  | nil => rfl
  | cons l ls ih => simp [textOf, ih]

namespace FileStore

theorem lookupFile_putFile (fs : List (String × List Nat)) (p : String) (c : List Nat) :
    lookupFile (putFile fs p c) p = some c := by
  induction fs with
  | nil => simp [putFile, lookupFile]
  | cons f fs ih =>
    obtain ⟨q, d⟩ := f
    simp only [putFile]
    split
    · simp [lookupFile]
    · rename_i hq
      simp [lookupFile, hq, ih]

theorem putFile_putFile (fs : List (String × List Nat)) (p : String) (c d : List Nat) :
    putFile (putFile fs p c) p d = putFile fs p d := by
  induction fs with
  | nil => simp [putFile]
  | cons f fs ih =>
    obtain ⟨q, e⟩ := f
    simp only [putFile]
    split
    · simp [putFile]
    · rename_i hq
      simp [putFile, hq, ih]

theorem usedList_putFile (fs : List (String × List Nat)) (p : String) (c : List Nat) :
    usedList (putFile fs p c) = usedList (dropFile fs p) + c.length := by
  induction fs with
  | nil => simp [putFile, dropFile, usedList]
  | cons f fs ih =>
    obtain ⟨q, d⟩ := f
    simp only [putFile, dropFile]
    split
    · simp only [usedList, List.map_cons, List.sum_cons]
      omega
    · simp only [usedList, List.map_cons, List.sum_cons] at ih ⊢
      omega

theorem usedList_lookupFile (fs : List (String × List Nat)) (p : String) (c : List Nat)
    (h : lookupFile fs p = some c) : usedList fs = usedList (dropFile fs p) + c.length := by
  induction fs with
  | nil => simp [lookupFile] at h
  | cons f fs ih =>
    obtain ⟨q, d⟩ := f
    simp only [lookupFile] at h
    simp only [dropFile]
    split at h
    · rename_i hq
      simp only [Option.some.injEq] at h
      simp only [hq, if_true, usedList, List.map_cons, List.sum_cons, h]
      omega
    · rename_i hq
      have := ih h
      simp only [hq, if_false, usedList, List.map_cons, List.sum_cons] at this ⊢
      omega

theorem write_capacity (s : FileStore) (file : File) (span : List Nat) :
    (s.write file span).2.capacity = s.capacity := by
  unfold write
  split
  · rfl
  · split <;> rfl

/-- A write never lets the total content size pass the reported capacity. -/
theorem write_respects_capacity (s : FileStore) (file : File) (span : List Nat)
    (h : s.usedBytes ≤ s.capacity) :
    (s.write file span).2.usedBytes ≤ (s.write file span).2.capacity := by
  rw [write_capacity]
  unfold write
  split
  · exact h
  · split
    · exact h
    · rename_i c hc
      have h1 := usedList_lookupFile s.files file.name c hc
      simp only [usedBytes] at h ⊢
      rw [usedList_putFile, List.length_append, List.length_take]
      omega

/-- With enough free space, a write through a handle opened for writing or
appending on the file named `p` appends the whole span to the content of `p`. -/
theorem write_putFile (s : FileStore) (fs : List (String × List Nat)) (p : String)
    (c span : List Nat) (file : File) (cap : Nat) (hs : s.files = putFile fs p c)
    (hn : file.name = p) (hm : file.mode ≠ .read) (hcap : s.capacity = cap)
    (hfree : usedList (dropFile fs p) + c.length + span.length ≤ cap) :
    (s.write file span).1 = span.length ∧
    (s.write file span).2.files = putFile fs p (c ++ span) ∧
    (s.write file span).2.capacity = cap := by
  have hu : s.usedBytes = usedList (dropFile fs p) + c.length := by
    unfold usedBytes
    rw [hs, usedList_putFile]
  have ht : span.take (s.capacity - s.usedBytes) = span := by
    apply List.take_of_length_le
    omega
  have hl : lookupFile s.files p = some c := by rw [hs, lookupFile_putFile]
  refine ⟨?_, ?_, by rw [write_capacity]; exact hcap⟩
  · unfold write
    rw [if_neg hm, hn]
    simp only [hl, ht]
  · unfold write
    rw [if_neg hm, hn]
    simp only [hl, ht]
    rw [hs, putFile_putFile]

end FileStore

theorem filePrintln_putFile (s : FileStore) (fs : List (String × List Nat)) (p : String)
    (c text : List Nat) (file : File) (cap : Nat) (hs : s.files = FileStore.putFile fs p c)
    (hn : file.name = p) (hm : file.mode ≠ .read) (hcap : s.capacity = cap)
    (hfree : FileStore.usedList (FileStore.dropFile fs p) + c.length + text.length + 2 ≤ cap) :
    (filePrintln fileStoreSPIFFS file text s).1.files =
      FileStore.putFile fs p (c ++ text ++ CRLF) ∧
    (filePrintln fileStoreSPIFFS file text s).1.capacity = cap := by
  have h1 := FileStore.write_putFile s fs p c text file cap hs hn hm hcap (by omega)
  have hf2 : FileStore.usedList (FileStore.dropFile fs p) + (c ++ text).length + CRLF.length
      ≤ cap := by
    simp only [List.length_append, CRLF, List.length_cons, List.length_nil]
    omega
  have h2 := FileStore.write_putFile (s.write file text).2 fs p (c ++ text) CRLF file cap
    h1.2.1 hn hm h1.2.2 hf2
  exact ⟨h2.2.1, h2.2.2⟩

theorem writtenLines_length (millis : Nat) :
    (textOf (writtenLines millis)).length =
      130 + (formatUnsigned (millis % 4294967296)).length := by
  have L1 : (bytesOf "ESP32-S3 SPIFFS Test File").length = 25 := by decide
  have L2 : (bytesOf "=========================").length = 25 := by decide
  have L3 : (bytesOf "Line 1: Hello from ESP32-S3!").length = 28 := by decide
  have L4 : (bytesOf "Line 2: SPIFFS is working!").length = 26 := by decide
  have L5 : (bytesOf "Line 3: Millis = ").length = 17 := by decide
  simp only [writtenLines, textOf, List.length_append, List.length_cons, List.length_nil,
    L1, L2, L3, L4, L5]
  omega

theorem appendedLines_length : (textOf appendedLines).length = 34 := by decide

theorem writeTestFile_files (t : FileStore) (millis : Nat)
    (hfree : FileStore.usedList (FileStore.dropFile t.files TEST_FILE) +
      (textOf (writtenLines millis)).length ≤ t.capacity) :
    (writeTestFile fileStoreSPIFFS millis t).1.files =
      FileStore.putFile t.files TEST_FILE (textOf (writtenLines millis)) ∧
    (writeTestFile fileStoreSPIFFS millis t).1.capacity = t.capacity := by
  rw [writtenLines_length] at hfree
  have L1 : (bytesOf "ESP32-S3 SPIFFS Test File").length = 25 := by decide
  have L2 : (bytesOf "=========================").length = 25 := by decide
  have L3 : (bytesOf "Line 1: Hello from ESP32-S3!").length = 28 := by decide
  have L4 : (bytesOf "Line 2: SPIFFS is working!").length = 26 := by decide
  have L5 : (bytesOf "Line 3: Millis = ").length = 17 := by decide
  have ho : (fileStoreSPIFFS.openFile t TEST_FILE .write).1 =
      some (t.fileHandle TEST_FILE .write []) := rfl
  have h0 : (fileStoreSPIFFS.openFile t TEST_FILE .write).2.files =
      FileStore.putFile t.files TEST_FILE [] := rfl
  have hc0 : (fileStoreSPIFFS.openFile t TEST_FILE .write).2.capacity = t.capacity := rfl
  unfold writeTestFile
  simp only [ho]
  generalize (fileStoreSPIFFS.openFile t TEST_FILE .write).2 = s0 at *
  generalize hf : t.fileHandle TEST_FILE .write [] = file
  have hn : file.name = TEST_FILE := by rw [← hf]; rfl
  have hm : file.mode ≠ .read := by rw [← hf]; simp [FileStore.fileHandle]
  have p1 := filePrintln_putFile s0 t.files TEST_FILE [] (bytesOf "ESP32-S3 SPIFFS Test File")
    file t.capacity h0 hn hm hc0 (by simp only [List.length_nil, L1]; omega)
  generalize filePrintln fileStoreSPIFFS file (bytesOf "ESP32-S3 SPIFFS Test File") s0 = r1 at *
  have p2 := filePrintln_putFile r1.1 t.files TEST_FILE _ (bytesOf "=========================")
    file t.capacity p1.1 hn hm p1.2
    (by simp only [List.length_append, List.length_nil, CRLF, List.length_cons, L1, L2]; omega)
  generalize filePrintln fileStoreSPIFFS file (bytesOf "=========================") r1.1 = r2 at *
  have p3 := filePrintln_putFile r2.1 t.files TEST_FILE _ (bytesOf "Line 1: Hello from ESP32-S3!")
    file t.capacity p2.1 hn hm p2.2
    (by simp only [List.length_append, List.length_nil, CRLF, List.length_cons, L1, L2, L3]
        omega)
  generalize filePrintln fileStoreSPIFFS file (bytesOf "Line 1: Hello from ESP32-S3!") r2.1 = r3 at *
  have p4 := filePrintln_putFile r3.1 t.files TEST_FILE _ (bytesOf "Line 2: SPIFFS is working!")
    file t.capacity p3.1 hn hm p3.2
    (by simp only [List.length_append, List.length_nil, CRLF, List.length_cons, L1, L2, L3, L4]
        omega)
  generalize filePrintln fileStoreSPIFFS file (bytesOf "Line 2: SPIFFS is working!") r3.1 = r4 at *
  have p5 := FileStore.write_putFile r4.1 t.files TEST_FILE _
    (bytesOf "Line 3: Millis = " ++ formatUnsigned (millis % 4294967296) ++ [10])
    file t.capacity p4.1 hn hm p4.2
    (by simp only [List.length_append, List.length_nil, CRLF, List.length_cons, L1, L2, L3, L4,
          L5]
        omega)
  have hc : ∀ (s : FileStore) (f : File), fileStoreSPIFFS.close s f = s := fun _ _ => rfl
  have hw : ∀ (s : FileStore) (f : File) (sp : List Nat),
      fileStoreSPIFFS.write s f sp = FileStore.write s f sp := fun _ _ _ => rfl
  rw [hc, hw]
  refine ⟨?_, p5.2.2⟩
  rw [p5.2.1]
  congr 1

theorem echoed_readTestFile (s : FileStore) (c : List Nat)
    (h : FileStore.lookupFile s.files TEST_FILE = some c) :
    (readTestFile fileStoreSPIFFS s).1.files = s.files ∧
    (readTestFile fileStoreSPIFFS s).1.capacity = s.capacity ∧
    echoed (readTestFile fileStoreSPIFFS s).2 = echoed (readLines s.nextHandle c) := by
  have ho : fileStoreSPIFFS.openFile s TEST_FILE .read =
      (some (s.fileHandle TEST_FILE .read c), { s with nextHandle := s.nextHandle + 1 }) := by
    show FileStore.openFile s TEST_FILE .read = _
    unfold FileStore.openFile
    have : TEST_FILE ≠ "/" := by decide
    simp only [this, if_false, h]
  unfold readTestFile
  simp only [ho]
  refine ⟨rfl, rfl, ?_⟩
  unfold echoed
  rw [List.filterMap_append, List.filterMap_append]
  simp [List.filterMap_cons, fmtD, FileStore.fileHandle]

theorem appendStep_files (s : FileStore) (fs : List (String × List Nat)) (c : List Nat)
    (cap : Nat) (hs : s.files = FileStore.putFile fs TEST_FILE c) (hcap : s.capacity = cap)
    (hfree : FileStore.usedList (FileStore.dropFile fs TEST_FILE) + c.length +
      (textOf appendedLines).length ≤ cap) :
    (appendStep fileStoreSPIFFS s).1.files =
      FileStore.putFile fs TEST_FILE (c ++ textOf appendedLines) := by
  rw [appendedLines_length] at hfree
  have A1 : (bytesOf "Appended line 1").length = 15 := by decide
  have A2 : (bytesOf "Appended line 2").length = 15 := by decide
  have hl : FileStore.lookupFile s.files TEST_FILE = some c := by
    rw [hs, FileStore.lookupFile_putFile]
  have ho : (fileStoreSPIFFS.openFile s TEST_FILE .append).1 =
      some (s.fileHandle TEST_FILE .append c) := by
    show (FileStore.openFile s TEST_FILE .append).1 = _
    unfold FileStore.openFile
    simp only [hl]
  have h0 : (fileStoreSPIFFS.openFile s TEST_FILE .append).2.files =
      FileStore.putFile fs TEST_FILE c := by
    show (FileStore.openFile s TEST_FILE .append).2.files = _
    unfold FileStore.openFile
    simp only [hl]
    exact hs
  have hc0 : (fileStoreSPIFFS.openFile s TEST_FILE .append).2.capacity = cap := by
    show (FileStore.openFile s TEST_FILE .append).2.capacity = _
    unfold FileStore.openFile
    simp only [hl]
    exact hcap
  unfold appendStep
  simp only [ho]
  generalize (fileStoreSPIFFS.openFile s TEST_FILE .append).2 = s0 at *
  generalize hf : s.fileHandle TEST_FILE .append c = file
  have hn : file.name = TEST_FILE := by rw [← hf]; rfl
  have hm : file.mode ≠ .read := by rw [← hf]; simp [FileStore.fileHandle]
  have p1 := filePrintln_putFile s0 fs TEST_FILE c (bytesOf "Appended line 1") file cap h0 hn hm
    hc0 (by simp only [A1]; omega)
  generalize filePrintln fileStoreSPIFFS file (bytesOf "Appended line 1") s0 = r1 at *
  have p2 := filePrintln_putFile r1.1 fs TEST_FILE _ (bytesOf "Appended line 2") file cap
    p1.1 hn hm p1.2
    (by simp only [List.length_append, CRLF, List.length_cons, List.length_nil, A1, A2]; omega)
  have hc : ∀ (s : FileStore) (f : File), fileStoreSPIFFS.close s f = s := fun _ _ => rfl
  rw [hc, p2.1]
  congr 1
  simp [appendedLines, textOf, CRLF, List.append_assoc]

theorem echoed_cons_println (b : String) (tr : List Event) :
    echoed (.println (.str b) :: tr) = echoed tr := by
  simp [echoed, List.filterMap_cons]

theorem echoed_append (a b : List Event) : echoed (a ++ b) = echoed a ++ echoed b := by
  unfold echoed
  exact List.filterMap_append _ _ _

theorem echoed_appendStep (s : FileStore) : echoed (appendStep fileStoreSPIFFS s).2 = [] := by
  unfold appendStep
  simp only
  split <;> simp [echoed, filePrintln, List.filterMap_cons, List.filterMap_append]

theorem echoed_lines (s : FileStore) (ls : List (List Nat)) (hl : ∀ l ∈ ls, 10 ∉ l)
    (h : FileStore.lookupFile s.files TEST_FILE = some (textOf ls)) :
    echoed (readTestFile fileStoreSPIFFS s).2 = ls := by
  rw [(echoed_readTestFile s _ h).2.2, readLines_textOf _ _ hl, echoed_flatMap]

/-- C6, amended: on the FileStore, from any state with free space for the
seven lines and for any `millis()` value, after test 1 (`writeTestFile`) the
file `/test.txt` holds the five written lines and test 2 (`readTestFile`)
echoes exactly these five lines in order; after the append step of test 3 the
file holds the five lines followed by the two appended lines, nothing lost or
interleaved, and the second `readTestFile` echoes exactly these seven lines in
order. -/
theorem append_scenario (t : FileStore) (millis : Nat)
    (hfree : FileStore.usedList (FileStore.dropFile t.files TEST_FILE) +
      (textOf (writtenLines millis ++ appendedLines)).length ≤ t.capacity) :
    (spiffsTest1 fileStoreSPIFFS millis t).1.content TEST_FILE =
      some (textOf (writtenLines millis)) ∧
    echoed (spiffsTest2 fileStoreSPIFFS (spiffsTest1 fileStoreSPIFFS millis t).1).2 =
      writtenLines millis ∧
    (spiffsTest3 fileStoreSPIFFS
      (spiffsTest2 fileStoreSPIFFS (spiffsTest1 fileStoreSPIFFS millis t).1).1).1.content
        TEST_FILE = some (textOf (writtenLines millis) ++ textOf appendedLines) ∧
    echoed (spiffsTest3 fileStoreSPIFFS
      (spiffsTest2 fileStoreSPIFFS (spiffsTest1 fileStoreSPIFFS millis t).1).1).2 =
      writtenLines millis ++ appendedLines ∧
    (writtenLines millis).length = 5 ∧
    (writtenLines millis ++ appendedLines).length = 7 := by
  rw [textOf_append, List.length_append] at hfree
  have hw := writeTestFile_files t millis (by omega)
  have hl1 : FileStore.lookupFile (writeTestFile fileStoreSPIFFS millis t).1.files TEST_FILE =
      some (textOf (writtenLines millis)) := by
    rw [hw.1, FileStore.lookupFile_putFile]
  have hr1 := echoed_readTestFile _ _ hl1
  have ha := appendStep_files
    (readTestFile fileStoreSPIFFS (writeTestFile fileStoreSPIFFS millis t).1).1
    t.files (textOf (writtenLines millis)) t.capacity (hr1.1.trans hw.1)
    (hr1.2.1.trans hw.2) (by omega)
  have hl2 : FileStore.lookupFile (appendStep fileStoreSPIFFS
      (readTestFile fileStoreSPIFFS (writeTestFile fileStoreSPIFFS millis t).1).1).1.files
      TEST_FILE = some (textOf (writtenLines millis ++ appendedLines)) := by
    rw [ha, FileStore.lookupFile_putFile, textOf_append]
  have hr2 := echoed_readTestFile _ _ hl2
  have hnl : ∀ l ∈ writtenLines millis ++ appendedLines, 10 ∉ l := by
    intro l hl
    rcases List.mem_append.mp hl with h | h
    · exact writtenLines_no_lf millis l h
    · exact appendedLines_no_lf l h
  simp only [spiffsTest1, spiffsTest2, spiffsTest3, FileStore.content, echoed_cons_println,
    echoed_append, echoed_appendStep, List.nil_append]
  refine ⟨hl1, ?_, ?_, ?_, rfl, rfl⟩
  · exact echoed_lines _ _ (writtenLines_no_lf millis) hl1
  · rw [hr2.1, hl2, textOf_append]
  · exact echoed_lines _ _ hnl hl2

set_option maxRecDepth 100000 in
/-- Witness of C6, amended: an empty filesystem of 1 MiB, `millis()` = 1234. -/
theorem append_scenario_witness :
    FileStore.usedList (FileStore.dropFile FileStore.blank.files TEST_FILE) +
      (textOf (writtenLines 1234 ++ appendedLines)).length ≤ FileStore.blank.capacity ∧
    echoed (spiffsTest3 fileStoreSPIFFS
      (spiffsTest2 fileStoreSPIFFS (spiffsTest1 fileStoreSPIFFS 1234 FileStore.blank).1).1).2 =
      writtenLines 1234 ++ appendedLines ∧
    (writtenLines 1234 ++ appendedLines).length = 7 :=
  have h := append_scenario FileStore.blank 1234 (by decide)
  ⟨by decide, h.2.2.2.1, h.2.2.2.2.2⟩

set_option maxRecDepth 100000 in
/-- Counterexample to C6 as stated: on a filesystem with room for the five
lines of `writeTestFile` and no more, the append step opens `/test.txt` and its
writes store nothing; the file still holds the five lines only and the second
`readTestFile` echoes five lines, the two appended lines being lost. -/
theorem appended_lines_lost_when_full :
    (spiffsTest3 fileStoreSPIFFS
      (spiffsTest2 fileStoreSPIFFS
        (spiffsTest1 fileStoreSPIFFS 0 FileStore.roomForFive).1).1).1.content TEST_FILE =
      some (textOf (writtenLines 0)) ∧
    echoed (spiffsTest3 fileStoreSPIFFS
      (spiffsTest2 fileStoreSPIFFS
        (spiffsTest1 fileStoreSPIFFS 0 FileStore.roomForFive).1).1).2 = writtenLines 0 ∧
    (writtenLines 0).length = 5 ∧
    writtenLines 0 ≠ writtenLines 0 ++ appendedLines := by
  have hc : (spiffsTest3 fileStoreSPIFFS
      (spiffsTest2 fileStoreSPIFFS
        (spiffsTest1 fileStoreSPIFFS 0 FileStore.roomForFive).1).1).1.content TEST_FILE =
      some (textOf (writtenLines 0)) := by decide
  have hl : FileStore.lookupFile (appendStep fileStoreSPIFFS
      (readTestFile fileStoreSPIFFS
        (writeTestFile fileStoreSPIFFS 0 FileStore.roomForFive).1).1).1.files TEST_FILE =
      some (textOf (writtenLines 0)) := by decide
  refine ⟨hc, ?_, rfl, by decide⟩
  simp only [spiffsTest1, spiffsTest2, spiffsTest3, echoed_cons_println, echoed_append,
    echoed_appendStep, List.nil_append]
  exact echoed_lines _ _ (writtenLines_no_lf 0) hl
end Xcela
